import Mathlib

/-!
Verification development for the valuecell trading strategy runtime.

This file gives a shallow embedding, over `ℚ`, of the pieces of the code that
the checked properties concern:

* the plan normalizer of the LLM composer
  (`python/valuecell/agents/strategy_agent/decision/composer.py`);
* the paper execution gateway
  (`python/valuecell/agents/strategy_agent/execution/paper_trading.py`);
* the live CCXT execution gateway loop
  (`python/valuecell/agents/strategy_agent/execution/ccxt_trading.py`),
  with the exchange SDK abstracted as an environment of oracles;
* the per-symbol decision step of the grid composer
  (`python/valuecell/agents/common/trading/decision/grid_composer/grid_composer.py`);
* market-type inference on user requests
  (`python/valuecell/agents/strategy_agent/models.py`);
* the feature pipeline ordering
  (`python/valuecell/agents/common/trading/features/pipeline.py`).

Python floats are modelled as rationals; Python `or` on numeric optionals
(which treats `None` and `0.0` alike) is modelled by `pyOrQ`.
-/

/-- Side for an executable trade instruction (`TradeSide` in `models.py`). -/
inductive TradeSide where
  | buy
  | sell
deriving DecidableEq

/-- Market type (`MarketType` in `models.py`). -/
inductive MarketType where
  | spot
  | future
  | swap
deriving DecidableEq

/-- Order price mode (`PriceMode` in `models.py`). -/
inductive PriceMode where
  | market
  | limit
deriving DecidableEq

/-- Execution status (`TxStatus` in `models.py`); `partialFill` renders `PARTIAL`. -/
inductive TxStatus where
  | filled
  | partialFill
  | rejected
  | error
deriving DecidableEq

/-- Normalized high-level action of an LLM plan item (`LlmDecisionAction`). -/
inductive LlmDecisionAction where
  | buy
  | sell
  | noop
deriving DecidableEq

/-- The string `.value` of an `LlmDecisionAction` member. -/
def LlmDecisionAction.value : LlmDecisionAction → String
  | .buy => "buy"
  | .sell => "sell"
  | .noop => "noop"

/-- Identifies a tradable instrument (`InstrumentRef` in `models.py`). -/
structure InstrumentRef where
  symbol : String
  exchange_id : Option String := none
  quote_ccy : Option String := none
deriving DecidableEq

/-- A Python `Dict[str, float]` used for symbol → price maps. -/
abbrev PriceMap : Type := List (String × ℚ)

/-- `dict.get(key)` on a `PriceMap`. -/
def PriceMap.get? (m : PriceMap) (s : String) : Option ℚ :=
  match m with
  | [] => none
  | (k, v) :: rest => if k = s then some v else PriceMap.get? rest s

/-- `dict.get(key, default)` on a `PriceMap`. -/
def PriceMap.getD (m : PriceMap) (s : String) (d : ℚ) : ℚ :=
  (m.get? s).getD d

/-- Python `x or d` for an optional float `x`: both `None` and `0.0` fall back. -/
def pyOrQ (o : Option ℚ) (d : ℚ) : ℚ :=
  match o with
  | some x => if x = 0 then d else x
  | none => d

/-- Typed constraints used by the composer (`Constraints` in `models.py`). -/
structure Constraints where
  max_positions : Option ℤ := none
  max_leverage : Option ℚ := none
  quantity_step : Option ℚ := none
  min_trade_qty : Option ℚ := none
  max_order_qty : Option ℚ := none
  min_notional : Option ℚ := none
  max_position_qty : Option ℚ := none
deriving DecidableEq

/-- Position snapshot fields read by the normalizer (`PositionSnapshot`). -/
structure PositionSnapshot where
  quantity : ℚ
  avg_price : Option ℚ := none
  mark_price : Option ℚ := none
deriving DecidableEq

/-- Portfolio fields read by the normalizer (`PortfolioView`). -/
structure PortfolioView where
  ts : ℤ
  cash : ℚ
  positions : List (String × PositionSnapshot) := []
  gross_exposure : Option ℚ := none
  net_exposure : Option ℚ := none
  constraints : Option Constraints := none
  total_value : Option ℚ := none
deriving DecidableEq

/-- Compose context fields read by the normalizer (`ComposeContext`). -/
structure ComposeContext where
  ts : ℤ
  compose_id : String
  portfolio : PortfolioView
  market_snapshot : Option PriceMap := none
deriving DecidableEq

/-- One LLM plan item (`LlmDecisionItem` in `models.py`). -/
structure LlmDecisionItem where
  instrument : InstrumentRef
  action : LlmDecisionAction
  target_qty : ℚ
  leverage : Option ℚ := none
  confidence : Option ℚ := none
  rationale : Option String := none
deriving DecidableEq

/-- Structured LLM output before normalization (`LlmPlanProposal`). -/
structure LlmPlanProposal where
  ts : ℤ
  items : List LlmDecisionItem := []
deriving DecidableEq

/-- The audit metadata attached by `_create_instruction` to each instruction. -/
structure TradeMeta where
  requested_target_qty : ℚ
  current_qty : ℚ
  final_target_qty : ℚ
  action : String
  confidence : Option ℚ := none
  rationale : Option String := none
deriving DecidableEq

/-- Executable instruction emitted by the composer (`TradeInstruction`). -/
structure TradeInstruction where
  instruction_id : String
  compose_id : String
  instrument : InstrumentRef
  side : TradeSide
  quantity : ℚ
  leverage : Option ℚ := none
  price_mode : PriceMode := .market
  limit_price : Option ℚ := none
  max_slippage_bps : Option ℚ := none
  meta : Option TradeMeta := none
deriving DecidableEq

/-- Result of executing one `TradeInstruction` (`TxResult` in `models.py`). -/
structure TxResult where
  instruction_id : String
  instrument : InstrumentRef
  side : TradeSide
  requested_qty : ℚ
  filled_qty : ℚ
  avg_exec_price : Option ℚ := none
  slippage_bps : Option ℚ := none
  fee_cost : Option ℚ := none
  leverage : Option ℚ := none
  status : TxStatus := .filled
  reason : Option String := none
  meta : Option TradeMeta := none
deriving DecidableEq

/-- The `LlmComposer` instance data the normalizer reads: market type and the
constructor defaults (`default_slippage_bps = 25`, `quantity_precision = 1e-9`),
plus the trading-config fields consulted (`cap_factor`, and the fallbacks for
missing portfolio constraints). -/
structure ComposerConfig where
  market_type : MarketType
  default_slippage_bps : ℚ := 25
  quantity_precision : ℚ := 1 / 1000000000
  cap_factor : ℚ := 3 / 2
  tc_max_positions : ℤ := 5
  tc_max_leverage : ℚ := 10
deriving DecidableEq

/-- Return value of `_init_buying_power_context`. -/
structure BPContext where
  equity : ℚ
  allowed_lev : ℚ
  constraints : Constraints
  projected_gross : ℚ
  price_map : PriceMap

/-- `LlmComposer._init_buying_power_context` (composer.py lines 307-356). -/
def init_buying_power_context (cfg : ComposerConfig) (ctx : ComposeContext) : BPContext :=
  let constraints := ctx.portfolio.constraints.getD
    { max_positions := some cfg.tc_max_positions
      max_leverage := some cfg.tc_max_leverage }
  let equity :=
    if cfg.market_type = MarketType.spot then ctx.portfolio.cash
    else
      match ctx.portfolio.total_value with
      | some tv => tv
      | none => ctx.portfolio.cash + (ctx.portfolio.net_exposure.getD 0)
  let allowed_lev :=
    if cfg.market_type = MarketType.spot then 1
    else
      match constraints.max_leverage with
      | some l => l
      | none => 1
  let price_map := ctx.market_snapshot.getD []
  let projected_gross :=
    match ctx.portfolio.gross_exposure with
    | some g => g
    | none =>
      ctx.portfolio.positions.foldl
        (fun acc p =>
          acc + |p.2.quantity| * pyOrQ (price_map.get? p.1) (pyOrQ p.2.mark_price 0)) 0
  ⟨equity, allowed_lev, constraints, projected_gross, price_map⟩

/-- First half of `LlmComposer._apply_quantity_filters` (composer.py lines
736-742): cap at `max_order_qty`, then floor to the nearest `quantity_step`. -/
def quantity_after_caps (quantity quantity_step : ℚ) (max_order_qty : Option ℚ) : ℚ :=
  let qty :=
    match max_order_qty with
    | some m => min quantity m
    | none => quantity
  if quantity_step > 0 then (⌊qty / quantity_step⌋ : ℚ) * quantity_step else qty

/-- Second half of `LlmComposer._apply_quantity_filters` (composer.py lines
744-770): zero out non-positive, sub-minimum, or sub-notional quantities. -/
def quantity_zero_checks (symbol : String) (qty min_trade_qty : ℚ)
    (min_notional : Option ℚ) (market_snapshot : PriceMap) : ℚ :=
  if qty ≤ 0 then 0
  else if qty < min_trade_qty then 0
  else
    match min_notional with
    | some mn =>
      match market_snapshot.get? symbol with
      | none => 0
      | some price => if qty * price < mn then 0 else qty
    | none => qty

/-- `LlmComposer._apply_quantity_filters` (composer.py lines 723-771). -/
def apply_quantity_filters (symbol : String) (quantity quantity_step min_trade_qty : ℚ)
    (max_order_qty min_notional : Option ℚ) (market_snapshot : PriceMap) : ℚ :=
  quantity_zero_checks symbol (quantity_after_caps quantity quantity_step max_order_qty)
    min_trade_qty min_notional market_snapshot

/-- Step 3 of `_normalize_quantity` (composer.py lines 438-484): the buying-power
clamp applied when the symbol has a known positive price `px`. -/
def buying_power_clamp (cfg : ComposerConfig) (qty : ℚ) (side : TradeSide)
    (current_qty equity allowed_lev projected_gross px : ℚ) : ℚ :=
  let avail_bp :=
    if cfg.market_type = MarketType.spot then max 0 equity
    else max 0 (equity * allowed_lev - projected_gross)
  let a := |current_qty|
  let slip_bps := if cfg.default_slippage_bps = 0 then 0 else cfg.default_slippage_bps
  let slip := slip_bps / 10000
  let effective_px := px * (1 + slip)
  let ap_units := if avail_bp > 0 then avail_bp / effective_px else 0
  let q_allowed :=
    if side = TradeSide.buy then
      if current_qty ≥ 0 then ap_units
      else if qty ≤ 2 * a then qty else 2 * a + ap_units
    else
      if current_qty ≤ 0 then ap_units
      else if qty ≤ 2 * a then qty else 2 * a + ap_units
  max 0 (min qty q_allowed)

/-- Step 2 of `_normalize_quantity` (composer.py lines 396-427): the
notional/leverage cap on the post-filter quantity, applied when the symbol has
a known positive price. -/
def notional_leverage_cap (cfg : ComposerConfig) (qty : ℚ) (side : TradeSide)
    (current_qty : ℚ) (c : Constraints) (equity allowed_lev : ℚ) (price : Option ℚ) : ℚ :=
  match price with
  | some price =>
    if price > 0 then
      let cap_factor := if cfg.cap_factor = 0 then 3 / 2 else cfg.cap_factor
      let cap_factor :=
        match c.quantity_step with
        | some s => if s ≠ 0 ∧ s > 0 then max cap_factor (3 / 2) else cap_factor
        | none => cap_factor
      let max_abs_by_factor := cap_factor * equity / price
      let max_abs_by_lev := allowed_lev * equity / price
      let max_abs_final := min max_abs_by_factor max_abs_by_lev
      let desired_final := current_qty + (if side = TradeSide.buy then qty else -qty)
      if |desired_final| > max_abs_final then
        let new_qty := max 0 (max_abs_final - |current_qty|)
        if new_qty < qty then new_qty else qty
      else qty
    else qty
  | none => qty

/-- `LlmComposer._normalize_quantity` (composer.py lines 358-505): per-order
filters, then the notional/leverage cap, then the buying-power clamp.  Returns
`(final_qty, consumed_buying_power_delta)`. -/
def normalize_quantity (cfg : ComposerConfig) (symbol : String) (quantity : ℚ)
    (side : TradeSide) (current_qty : ℚ) (c : Constraints)
    (equity allowed_lev projected_gross : ℚ) (price_map : PriceMap) : ℚ × ℚ :=
  let qty := apply_quantity_filters symbol quantity (pyOrQ c.quantity_step 0)
    (pyOrQ c.min_trade_qty 0) c.max_order_qty c.min_notional price_map
  if qty ≤ cfg.quantity_precision then (0, 0)
  else
    let qty := notional_leverage_cap cfg qty side current_qty c equity allowed_lev
      (price_map.get? symbol)
    if qty ≤ cfg.quantity_precision then (0, 0)
    else
      let final_qty :=
        match price_map.get? symbol with
        | none => qty
        | some px =>
          if px ≤ 0 then qty
          else buying_power_clamp cfg qty side current_qty equity allowed_lev projected_gross px
      if final_qty ≤ cfg.quantity_precision then (0, 0)
      else
        let abs_before := |current_qty|
        let abs_after :=
          |current_qty + (if side = TradeSide.buy then final_qty else -final_qty)|
        let delta_abs := abs_after - abs_before
        let consumed_bp_delta :=
          if delta_abs > 0 then delta_abs * price_map.getD symbol 0 else 0
        (final_qty, consumed_bp_delta)

/-- `LlmComposer._resolve_target_quantity` (composer.py lines 699-721). -/
def resolve_target_quantity (item : LlmDecisionItem) (current_qty : ℚ)
    (max_position_qty : Option ℚ) : ℚ :=
  if item.action = LlmDecisionAction.noop then current_qty
  else
    let mag := item.target_qty
    let target := if item.action = LlmDecisionAction.sell then -|mag| else |mag|
    match max_position_qty with
    | some m => max (-|m|) (min |m| target)
    | none => target

/-- `LlmComposer._create_instruction` (composer.py lines 652-697). -/
def create_instruction (cfg : ComposerConfig) (ctx : ComposeContext) (idx : ℕ)
    (item : LlmDecisionItem) (symbol : String) (side : TradeSide)
    (quantity final_leverage current_qty target_qty : ℚ) : TradeInstruction :=
  let final_target := current_qty + (if side = TradeSide.buy then quantity else -quantity)
  { instruction_id := ctx.compose_id ++ ":" ++ symbol ++ ":" ++ toString idx
    compose_id := ctx.compose_id
    instrument := item.instrument
    side := side
    quantity := quantity
    leverage := some final_leverage
    price_mode := .market
    limit_price := none
    max_slippage_bps := some cfg.default_slippage_bps
    meta := some
      { requested_target_qty := target_qty
        current_qty := current_qty
        final_target_qty := final_target
        action := item.action.value
        confidence := item.confidence
        rationale := item.rationale } }

/-- Mutable state threaded through `_normalize_plan`: the projected positions
map, the active-position count, and the projected gross exposure. -/
structure PlanState where
  positions : List (String × ℚ)
  active : ℤ
  gross : ℚ

/-- `projected_positions.get(symbol, 0.0)`. -/
def posGet (l : List (String × ℚ)) (s : String) : ℚ :=
  match l with
  | [] => 0
  | (k, v) :: rest => if k = s then v else posGet rest s

/-- `projected_positions[symbol] = v`. -/
def posSet (l : List (String × ℚ)) (s : String) (v : ℚ) : List (String × ℚ) :=
  match l with
  | [] => [(s, v)]
  | (k, w) :: rest => if k = s then (k, v) :: rest else (k, w) :: posSet rest s v

/-- The `max_positions` gate test of `_normalize_plan` (composer.py lines 567-571):
true when a configured limit is already reached by the active-position count. -/
def max_positions_reached (mp : Option ℤ) (active : ℤ) : Bool :=
  match mp with
  | some m => decide (m ≤ active)
  | none => false

/-- `_count_active` inside `_normalize_plan` (composer.py lines 520-521). -/
def count_active (cfg : ComposerConfig) (l : List (String × ℚ)) : ℤ :=
  (l.filter (fun p => cfg.quantity_precision < |p.2|)).length

/-- The inner sub-step loop of `_normalize_plan` (composer.py lines 557-648):
iterate over `sub_targets`, emitting at most one instruction per sub-step. -/
def process_sub (cfg : ComposerConfig) (ctx : ComposeContext) (equity allowed_lev : ℚ)
    (c : Constraints) (price_map : PriceMap) (idx : ℕ) (item : LlmDecisionItem)
    (symbol : String) :
    List ℚ → ℕ → ℚ → PlanState → List TradeInstruction × PlanState
  | [], _, _, st => ([], st)
  | sub_target :: rest, sub_i, local_current, st =>
    let delta := sub_target - local_current
    if |delta| ≤ cfg.quantity_precision then
      process_sub cfg ctx equity allowed_lev c price_map idx item symbol
        rest (sub_i + 1) local_current st
    else
      let is_new_position :=
        |local_current| ≤ cfg.quantity_precision ∧ cfg.quantity_precision < |sub_target|
      let gate_skip :=
        is_new_position ∧ max_positions_reached c.max_positions st.active = true
      if gate_skip then
        process_sub cfg ctx equity allowed_lev c price_map idx item symbol
          rest (sub_i + 1) local_current st
      else
        let side := if 0 < delta then TradeSide.buy else TradeSide.sell
        let requested_lev := (item.leverage).getD 1
        let allowed_lev_item := (c.max_leverage).getD requested_lev
        let final_leverage :=
          if cfg.market_type = MarketType.spot then 1
          else max 1 (min requested_lev allowed_lev_item)
        let nq := normalize_quantity cfg symbol |delta| side local_current c
          equity allowed_lev st.gross price_map
        let quantity := nq.1
        let consumed_bp := nq.2
        if quantity ≤ cfg.quantity_precision then
          process_sub cfg ctx equity allowed_lev c price_map idx item symbol
            rest (sub_i + 1) local_current st
        else
          let signed_delta := if side = TradeSide.buy then quantity else -quantity
          let new_pos := local_current + signed_delta
          let positions1 := posSet st.positions symbol new_pos
          let gross1 := st.gross + consumed_bp
          let active1 := if is_new_position then st.active + 1 else st.active
          let active2 := if |new_pos| ≤ cfg.quantity_precision then max (active1 - 1) 0 else active1
          let instr := create_instruction cfg ctx (idx * 10 + sub_i) item symbol side
            quantity final_leverage local_current sub_target
          let res := process_sub cfg ctx equity allowed_lev c price_map idx item symbol
            rest (sub_i + 1) new_pos ⟨positions1, active2, gross1⟩
          (instr :: res.1, res.2)

/-- The outer item loop of `_normalize_plan` (composer.py lines 534-650). -/
def process_items (cfg : ComposerConfig) (ctx : ComposeContext) (equity allowed_lev : ℚ)
    (c : Constraints) (price_map : PriceMap) :
    List LlmDecisionItem → ℕ → PlanState → List TradeInstruction
  | [], _, _ => []
  | item :: rest, idx, st =>
    let symbol := item.instrument.symbol
    let current_qty := posGet st.positions symbol
    let target0 := resolve_target_quantity item current_qty c.max_position_qty
    let target_qty :=
      if cfg.market_type = MarketType.spot ∧ target0 < 0 then 0 else target0
    let sub_targets := if current_qty * target_qty < 0 then [0, target_qty] else [target_qty]
    let res := process_sub cfg ctx equity allowed_lev c price_map idx item symbol
      sub_targets 0 current_qty st
    res.1 ++ process_items cfg ctx equity allowed_lev c price_map rest (idx + 1) res.2

/-- `LlmComposer._normalize_plan` (composer.py lines 507-650). -/
def normalize_plan (cfg : ComposerConfig) (ctx : ComposeContext)
    (plan : LlmPlanProposal) : List TradeInstruction :=
  let positions0 := ctx.portfolio.positions.map (fun p => (p.1, p.2.quantity))
  let active0 := count_active cfg positions0
  let bp := init_buying_power_context cfg ctx
  process_items cfg ctx bp.equity bp.allowed_lev bp.constraints bp.price_map
    plan.items 0 ⟨positions0, active0, bp.projected_gross⟩

/-- `PaperExecutionGateway.execute` (paper_trading.py lines 19-54), for a fixed
`fee_bps`: every instruction is filled at the snapshot price adjusted by the
instruction's slippage, with a flat fee on notional. -/
def paper_execute (fee_bps : ℚ) (instructions : List TradeInstruction)
    (market_snapshot : Option PriceMap) : List TxResult :=
  let price_map := market_snapshot.getD []
  instructions.map (fun inst =>
    let ref_price := pyOrQ (some (price_map.getD inst.instrument.symbol 0)) 0
    let slip_bps := pyOrQ inst.max_slippage_bps 0
    let slip := slip_bps / 10000
    let exec_price :=
      if inst.side = TradeSide.buy then ref_price * (1 + slip) else ref_price * (1 - slip)
    let notional := exec_price * inst.quantity
    let fee_cost := if notional ≠ 0 then notional * (fee_bps / 10000) else 0
    { instruction_id := inst.instruction_id
      instrument := inst.instrument
      side := inst.side
      requested_qty := inst.quantity
      filled_qty := inst.quantity
      avg_exec_price := if exec_price ≠ 0 then some exec_price else none
      slippage_bps := if slip_bps ≠ 0 then some slip_bps else none
      fee_cost := if fee_cost ≠ 0 then some fee_cost else none
      leverage := inst.leverage
      status := .filled
      reason := none
      meta := inst.meta })

/-- The parsed fields of a CCXT order response read by `_submit_order`
(ccxt_trading.py lines 826-852). -/
structure OrderResp where
  filled : ℚ
  average : Option ℚ := none
  fee_cost : Option ℚ := none
  status_str : Option String := none

/-- Abstraction of the live exchange consulted by `CCXTExecutionGateway`:
`convert_amount` covers the contract-size conversion and
`amount_to_precision` alignment (ccxt_trading.py lines 630-653);
`min_check` the exchange-minimum precheck (line 662); `margin_check` the
margin prechecks (lines 680-755); `create_order` order creation plus the
post-fill fetch, failing with the raised message (lines 784-824). -/
structure ExchangeEnv where
  convert_amount : String → ℚ → ℚ
  min_check : String → ℚ → Option String
  margin_check : String → ℚ → Option String
  create_order : String → TradeSide → ℚ → Except String OrderResp

/-- `CCXTExecutionGateway._submit_order` (ccxt_trading.py lines 580-867).
An `Except.error` models the `RuntimeError` raised on order-creation failure. -/
def submit_order (env : ExchangeEnv) (inst : TradeInstruction) : Except String TxResult :=
  let symbol := inst.instrument.symbol
  let amount := env.convert_amount symbol inst.quantity
  match env.min_check symbol amount with
  | some reject_reason =>
    .ok { instruction_id := inst.instruction_id, instrument := inst.instrument
          side := inst.side, requested_qty := inst.quantity, filled_qty := 0
          status := .rejected, reason := some reject_reason, meta := inst.meta }
  | none =>
  match env.margin_check symbol amount with
  | some reject_reason =>
    .ok { instruction_id := inst.instruction_id, instrument := inst.instrument
          side := inst.side, requested_qty := inst.quantity, filled_qty := 0
          status := .rejected, reason := some reject_reason, meta := inst.meta }
  | none =>
  match env.create_order symbol inst.side amount with
  | .error e => .error ("Failed to create order for " ++ symbol ++ ": " ++ e)
  | .ok order =>
    let filled_qty := order.filled
    let avg_price := pyOrQ order.average 0
    let fee_cost := (order.fee_cost).getD 0
    let slippage_bps :=
      match inst.limit_price with
      | some lp =>
        if avg_price ≠ 0 ∧ inst.price_mode = PriceMode.limit then
          some (|avg_price - lp| / lp * 10000)
        else none
      | none => none
    let status :=
      if filled_qty = 0 then TxStatus.rejected
      else if filled_qty < amount * (99 / 100) then TxStatus.partialFill
      else TxStatus.filled
    .ok { instruction_id := inst.instruction_id
          instrument := inst.instrument
          side := inst.side
          requested_qty := amount
          filled_qty := filled_qty
          avg_exec_price := if avg_price > 0 then some avg_price else none
          slippage_bps := slippage_bps
          fee_cost := if fee_cost > 0 then some fee_cost else none
          leverage := inst.leverage
          status := status
          reason := if status ≠ TxStatus.filled then order.status_str else none
          meta := inst.meta }

/-- `CCXTExecutionGateway._execute_single` (ccxt_trading.py lines 550-578):
dispatch on the high-level action recorded in the instruction metadata. -/
def execute_single (env : ExchangeEnv) (inst : TradeInstruction) : Except String TxResult :=
  let action :=
    match inst.meta with
    | some m => m.action
    | none => ""
  if action = "noop" then
    .ok { instruction_id := inst.instruction_id, instrument := inst.instrument
          side := inst.side, requested_qty := inst.quantity, filled_qty := 0
          status := .rejected, reason := some "noop", meta := inst.meta }
  else submit_order env inst

/-- `CCXTExecutionGateway.execute` (ccxt_trading.py lines 497-548): one result
per instruction, a per-instruction exception becoming an ERROR result. -/
def ccxt_execute (env : ExchangeEnv) (instructions : List TradeInstruction) : List TxResult :=
  instructions.map (fun inst =>
    match execute_single env inst with
    | .ok result => result
    | .error e =>
      { instruction_id := inst.instruction_id
        instrument := inst.instrument
        side := inst.side
        requested_qty := inst.quantity
        filled_qty := 0
        status := .error
        reason := some e
        meta := inst.meta })

/-- Modelled from the spec: the plan-item action enum of the common trading
models (`valuecell/agents/common/trading/models.py`, not included in the
sources), as described in spec §3 (`PlanItem.action`). -/
inductive TradeDecisionAction where
  | open_long
  | open_short
  | close_long
  | close_short
  | noop
deriving DecidableEq

/-- Modelled from the spec: a plan item of the common trading models
(`TradeDecisionItem`), as described in spec §3 — instrument, action, a
magnitude `target_qty`, leverage and confidence.  The free-text rationale is
omitted. -/
structure TradeDecisionItem where
  symbol : String
  action : TradeDecisionAction
  target_qty : ℚ
  leverage : ℚ
  confidence : ℚ
deriving DecidableEq

/-- The `GridComposer` parameters read by the per-symbol decision step:
`step_pct`, `max_steps`, `base_fraction`, the optional grid zone, the
quantity precision, the market type, and the leverage configuration. -/
structure GridParams where
  step_pct : ℚ
  max_steps : ℤ
  base_fraction : ℚ
  quantity_precision : ℚ := 1 / 1000000000
  is_spot : Bool
  grid_lower_pct : Option ℚ := none
  grid_upper_pct : Option ℚ := none
  tc_max_leverage : Option ℚ := none
  c_max_leverage : Option ℚ := none
deriving DecidableEq

/-- The leverage attached to grid open orders (grid_composer.py lines 463-476):
`min(trading_config.max_leverage or 1.0, constraints.max_leverage or
trading_config.max_leverage or 1.0)`. -/
def grid_leverage (p : GridParams) : ℚ :=
  min (pyOrQ p.tc_max_leverage 1) (pyOrQ p.c_max_leverage (pyOrQ p.tc_max_leverage 1))

/-- The loop body of `GridComposer.compose` for one symbol (grid_composer.py
lines 411-637): emitted decision items given the snapshot price, the held
quantity and average price, the resolved previous/current price pair, and the
equity.  Rationale strings are dropped; everything decision-relevant is kept. -/
def grid_decide_symbol (p : GridParams) (price qty avg_px : ℚ)
    (pair : Option (ℚ × ℚ)) (equity : ℚ) (symbol : String) : List TradeDecisionItem :=
  if price ≤ 0 then []
  else
    let base_qty := max 0 (equity * p.base_fraction / price)
    if base_qty ≤ 0 then []
    else if |qty| ≤ p.quantity_precision then
      match pair with
      | none => []
      | some pc =>
        let prev_px := pc.1
        let curr_px := pc.2
        let moved_down := curr_px ≤ prev_px * (1 - p.step_pct)
        let moved_up := curr_px ≥ prev_px * (1 + p.step_pct)
        if moved_down then
          [{ symbol := symbol, action := .open_long, target_qty := base_qty
             leverage := if p.is_spot then 1 else grid_leverage p
             confidence := 1 }]
        else if p.is_spot = false ∧ moved_up then
          [{ symbol := symbol, action := .open_short, target_qty := base_qty
             leverage := grid_leverage p, confidence := 1 }]
        else []
    else
      match pair with
      | none => []
      | some pc =>
        if avg_px ≤ 0 then []
        else
          let prev_px := pc.1
          let curr_px := pc.2
          let grid_index := fun (px : ℚ) =>
            ⌊(px / avg_px - 1) / max p.step_pct (1 / 1000000000)⌋
          let delta_idx := grid_index curr_px - grid_index prev_px
          if delta_idx = 0 then []
          else
            let zone_active := p.grid_lower_pct ≠ none ∨ p.grid_upper_pct ≠ none
            let lower_bound := avg_px * (1 - (p.grid_lower_pct).getD 0)
            let upper_bound := avg_px * (1 + (p.grid_upper_pct).getD 0)
            if 0 < avg_px ∧ zone_active ∧ (price < lower_bound ∨ upper_bound < price) then []
            else
              let applied_steps : ℤ := min |delta_idx| p.max_steps
              if 0 < qty then
                if delta_idx < 0 then
                  [{ symbol := symbol, action := .open_long
                     target_qty := base_qty * (applied_steps : ℚ)
                     leverage := if p.is_spot then 1 else grid_leverage p
                     confidence := min 1 ((applied_steps : ℚ) / (p.max_steps : ℚ)) }]
                else
                  [{ symbol := symbol, action := .close_long
                     target_qty := min |qty| (base_qty * (applied_steps : ℚ))
                     leverage := 1
                     confidence := min 1 ((applied_steps : ℚ) / (p.max_steps : ℚ)) }]
              else if qty < 0 then
                if 0 < delta_idx ∧ p.is_spot = false then
                  [{ symbol := symbol, action := .open_short
                     target_qty := base_qty * (applied_steps : ℚ)
                     leverage := grid_leverage p
                     confidence := min 1 ((applied_steps : ℚ) / (p.max_steps : ℚ)) }]
                else if delta_idx < 0 then
                  [{ symbol := symbol, action := .close_short
                     target_qty := min |qty| (base_qty * (applied_steps : ℚ))
                     leverage := 1
                     confidence := min 1 ((applied_steps : ℚ) / (p.max_steps : ℚ)) }]
                else []
              else []

/-- The raw value found under a dict key in a request payload: absent, JSON
null (`None`), or a string. -/
inductive RawField where
  | absent
  | pynone
  | strval (s : String)
deriving DecidableEq

/-- `DEFAULT_MAX_LEVERAGE` from `strategy_agent/constants.py`. -/
def DEFAULT_MAX_LEVERAGE : ℚ := 10

/-- Python `str.strip()`: drop leading and trailing whitespace. -/
def pyStrip (s : String) : String :=
  ⟨((s.data.dropWhile Char.isWhitespace).reverse.dropWhile Char.isWhitespace).reverse⟩

/-- `UserRequest._infer_market_type` (models.py lines 239-270), restricted to
the two fields it reads: the raw `exchange_config.market_type` entry and the
raw numeric `trading_config.max_leverage` entry. -/
def infer_market_type (market_type : RawField) (max_leverage : Option ℚ) : RawField :=
  let mt_missing :=
    match market_type with
    | .absent => true
    | .pynone => true
    | .strval s => pyStrip s = ""
  if mt_missing then
    let ml := max_leverage.getD DEFAULT_MAX_LEVERAGE
    .strval (if ml ≤ 1 then "spot" else "swap")
  else market_type

/-- Modelled from the spec: `CandleConfig { interval, lookback }` of the common
trading models (spec §4.2), whose `models.py` is not among the sources. -/
structure CandleConfig where
  interval : String
  lookback : ℕ
deriving DecidableEq

/-- A feature vector (`FeatureVector` in `models.py`), with the heterogeneous
meta bag reduced to string pairs. -/
structure FeatureVector where
  ts : ℤ
  instrument : InstrumentRef
  values : List (String × ℚ) := []
  meta : List (String × String) := []
deriving DecidableEq

/-- The default candle configurations of `DefaultFeaturesPipeline.__init__`
(pipeline.py lines 52-55): 1s × 180 and 1m × 240. -/
def default_candle_configurations : List CandleConfig :=
  [⟨"1s", 60 * 3⟩, ⟨"1m", 60 * 4⟩]

/-- `DefaultFeaturesPipeline.build` (pipeline.py lines 57-102), with the
concurrent fetches abstracted as functions: `asyncio.gather` preserves task
order, the market features are popped off the end, the candle feature lists
are flattened in configuration order, and the market features are appended. -/
def pipeline_build (configs : List CandleConfig)
    (fetch_candle_features : CandleConfig → List FeatureVector)
    (market_features : List FeatureVector) : List FeatureVector :=
  (configs.map fetch_candle_features).flatten ++ market_features

/-! ### Helper lemmas on the quantity pipeline -/

theorem floor_step_le (x s : ℚ) (hs : 0 < s) : (⌊x / s⌋ : ℚ) * s ≤ x := by
  have h := Int.floor_le (x / s)
  have h2 : (⌊x / s⌋ : ℚ) * s ≤ (x / s) * s :=
    mul_le_mul_of_nonneg_right h (le_of_lt hs)
  calc (⌊x / s⌋ : ℚ) * s ≤ (x / s) * s := h2
    _ = x := div_mul_cancel₀ x (ne_of_gt hs)

theorem quantity_zero_checks_cases (symbol : String) (qty minq : ℚ)
    (minn : Option ℚ) (pm : PriceMap) :
    quantity_zero_checks symbol qty minq minn pm = 0 ∨
      (quantity_zero_checks symbol qty minq minn pm = qty ∧ 0 < qty) := by
  unfold quantity_zero_checks
  split_ifs with h1 h2
  · exact Or.inl rfl
  · exact Or.inl rfl
  · rcases minn with _ | mn
    · exact Or.inr ⟨rfl, not_le.mp h1⟩
    · rcases hpm : PriceMap.get? pm symbol with _ | px
      · exact Or.inl rfl
      · simp only
        split_ifs with h3
        · exact Or.inl rfl
        · exact Or.inr ⟨rfl, not_le.mp h1⟩

theorem quantity_after_caps_le (q step : ℚ) (maxo : Option ℚ) :
    quantity_after_caps q step maxo ≤ q := by
  unfold quantity_after_caps
  rcases maxo with _ | M
  · simp only
    split_ifs with h1
    · exact floor_step_le q step h1
    · exact le_refl q
  · simp only
    split_ifs with h1
    · exact le_trans (floor_step_le (min q M) step h1) (min_le_left q M)
    · exact min_le_left q M

theorem quantity_after_caps_le_max (q step M : ℚ) :
    quantity_after_caps q step (some M) ≤ M := by
  unfold quantity_after_caps
  simp only
  split_ifs with h1
  · exact le_trans (floor_step_le (min q M) step h1) (min_le_right q M)
  · exact min_le_right q M

/-- Outcome of `_apply_quantity_filters`: either the order is zeroed out, or the
returned quantity is positive, bounded by the input, and bounded by any
configured `max_order_qty`. -/
theorem apply_quantity_filters_spec (symbol : String) (q step minq : ℚ)
    (maxo minn : Option ℚ) (pm : PriceMap) :
    apply_quantity_filters symbol q step minq maxo minn pm = 0 ∨
      (0 < apply_quantity_filters symbol q step minq maxo minn pm ∧
       apply_quantity_filters symbol q step minq maxo minn pm ≤ q ∧
       ∀ M, maxo = some M → apply_quantity_filters symbol q step minq maxo minn pm ≤ M) := by
  unfold apply_quantity_filters
  rcases quantity_zero_checks_cases symbol (quantity_after_caps q step maxo) minq minn pm
    with h | ⟨heq, hpos⟩
  · exact Or.inl h
  · right
    rw [heq]
    refine ⟨hpos, quantity_after_caps_le q step maxo, ?_⟩
    intro M hM
    subst hM
    exact quantity_after_caps_le_max q step M

theorem apply_quantity_filters_nonneg (symbol : String) (q step minq : ℚ)
    (maxo minn : Option ℚ) (pm : PriceMap) :
    0 ≤ apply_quantity_filters symbol q step minq maxo minn pm := by
  rcases apply_quantity_filters_spec symbol q step minq maxo minn pm with h | ⟨h, _, _⟩
  · exact h.ge
  · exact h.le

theorem buying_power_clamp_bounds (cfg : ComposerConfig) (qty : ℚ) (side : TradeSide)
    (cur e l g px : ℚ) (hq : 0 ≤ qty) :
    0 ≤ buying_power_clamp cfg qty side cur e l g px ∧
      buying_power_clamp cfg qty side cur e l g px ≤ qty := by
  unfold buying_power_clamp
  exact ⟨le_max_left 0 _, max_le hq (min_le_left _ _)⟩

theorem if_max_bounds (qty t : ℚ) (cond : Prop) [Decidable cond] (hq : 0 ≤ qty) :
    0 ≤ (if cond then (if max 0 t < qty then max 0 t else qty) else qty) ∧
      (if cond then (if max 0 t < qty then max 0 t else qty) else qty) ≤ qty := by
  split_ifs with h1 h2
  · exact ⟨le_max_left 0 t, le_of_lt h2⟩
  · exact ⟨hq, le_refl qty⟩
  · exact ⟨hq, le_refl qty⟩

theorem notional_leverage_cap_bounds (cfg : ComposerConfig) (qty : ℚ) (side : TradeSide)
    (cur : ℚ) (c : Constraints) (e l : ℚ) (price : Option ℚ) (hq : 0 ≤ qty) :
    0 ≤ notional_leverage_cap cfg qty side cur c e l price ∧
      notional_leverage_cap cfg qty side cur c e l price ≤ qty := by
  unfold notional_leverage_cap
  rcases price with _ | px
  · exact ⟨hq, le_refl qty⟩
  · simp only
    by_cases h1 : px > 0
    · rw [if_pos h1]
      exact if_max_bounds qty _ _ hq
    · rw [if_neg h1]
      exact ⟨hq, le_refl qty⟩

/-- The final quantity of `_normalize_quantity` is nonnegative and bounded by
the post-filter quantity. -/
theorem normalize_quantity_le (cfg : ComposerConfig) (symbol : String) (q : ℚ)
    (side : TradeSide) (cur : ℚ) (c : Constraints) (e l g : ℚ) (pm : PriceMap) :
    0 ≤ (normalize_quantity cfg symbol q side cur c e l g pm).1 ∧
      (normalize_quantity cfg symbol q side cur c e l g pm).1 ≤
        apply_quantity_filters symbol q (pyOrQ c.quantity_step 0) (pyOrQ c.min_trade_qty 0)
          c.max_order_qty c.min_notional pm := by
  simp only [normalize_quantity]
  set f := apply_quantity_filters symbol q (pyOrQ c.quantity_step 0) (pyOrQ c.min_trade_qty 0)
    c.max_order_qty c.min_notional pm with hf
  have hf0 : 0 ≤ f := apply_quantity_filters_nonneg symbol q _ _ _ _ pm
  rcases hpm : PriceMap.get? pm symbol with _ | px <;> simp only [hpm]
  · have hb := notional_leverage_cap_bounds cfg f side cur c e l none hf0
    split_ifs <;>
      first
        | exact ⟨le_refl 0, hf0⟩
        | exact ⟨hb.1, hb.2⟩
  · have hb := notional_leverage_cap_bounds cfg f side cur c e l (some px) hf0
    have hcl := buying_power_clamp_bounds cfg
      (notional_leverage_cap cfg f side cur c e l (some px)) side cur e l g px hb.1
    split_ifs <;>
      first
        | exact ⟨le_refl 0, hf0⟩
        | exact ⟨hb.1, hb.2⟩
        | exact ⟨hcl.1, le_trans hcl.2 hb.2⟩

/-- With no binding constraints and no price for the symbol, `_normalize_quantity`
passes a positive quantity through unchanged and consumes no buying power. -/
theorem normalize_quantity_trivial (cfg : ComposerConfig) (symbol : String) (q : ℚ)
    (side : TradeSide) (cur e l g : ℚ)
    (hprec : 0 ≤ cfg.quantity_precision) (hq : cfg.quantity_precision < q) :
    normalize_quantity cfg symbol q side cur {} e l g [] = (q, 0) := by
  have hq0 : 0 < q := lt_of_le_of_lt hprec hq
  have h1 : ¬ (q ≤ (0 : ℚ)) := not_le.mpr hq0
  have h2 : ¬ (q < (0 : ℚ)) := not_lt.mpr hq0.le
  have h3 : ¬ (q ≤ cfg.quantity_precision) := not_le.mpr hq
  simp [normalize_quantity, apply_quantity_filters, quantity_after_caps, quantity_zero_checks,
    notional_leverage_cap, pyOrQ, PriceMap.get?, PriceMap.getD, h1, h2, h3]

/-! ### Claim theorems -/

/-- C2: in the normalizer's buying-power clamp, for an order at a known
positive price: a magnitude-reducing order (opposite side, `qty ≤ 2·|current|`)
passes through unchanged; an opposite-side order beyond that is capped at
`2·|current| + buying_power / (price · (1 + slippage))`; a same-side order is
capped at `buying_power / (price · (1 + slippage))` (no units to flatten),
where buying power is `max 0 (equity·leverage − gross)` for derivatives and
`max 0 equity` for spot — and for spot the equity used is the portfolio cash. -/
theorem C2_theorem (cfg : ComposerConfig) (qty : ℚ) (side : TradeSide)
    (cur equity lev gross px : ℚ)
    (hpx : 0 < px) (hq : 0 < qty) (hslip : 0 ≤ cfg.default_slippage_bps) :
    ((side = TradeSide.buy ∧ cur < 0 ∨ side = TradeSide.sell ∧ 0 < cur) →
      (qty ≤ 2 * |cur| →
        buying_power_clamp cfg qty side cur equity lev gross px = qty) ∧
      (2 * |cur| < qty →
        buying_power_clamp cfg qty side cur equity lev gross px =
          min qty (2 * |cur| +
            (if cfg.market_type = MarketType.spot then max 0 equity
             else max 0 (equity * lev - gross)) /
              (px * (1 + cfg.default_slippage_bps / 10000))))) ∧
    ((side = TradeSide.buy ∧ 0 ≤ cur ∨ side = TradeSide.sell ∧ cur ≤ 0) →
      buying_power_clamp cfg qty side cur equity lev gross px =
        min qty
          ((if cfg.market_type = MarketType.spot then max 0 equity
            else max 0 (equity * lev - gross)) /
            (px * (1 + cfg.default_slippage_bps / 10000)))) ∧
    (∀ ctx : ComposeContext, cfg.market_type = MarketType.spot →
      (init_buying_power_context cfg ctx).equity = ctx.portfolio.cash) := by
  have heff : 0 < px * (1 + cfg.default_slippage_bps / 10000) := by
    have hd : (0 : ℚ) ≤ cfg.default_slippage_bps / 10000 :=
      div_nonneg hslip (by norm_num)
    have : (0 : ℚ) < 1 + cfg.default_slippage_bps / 10000 := by linarith
    exact mul_pos hpx this
  set BP : ℚ :=
    (if cfg.market_type = MarketType.spot then max 0 equity
     else max 0 (equity * lev - gross)) with hBP
  have hBP0 : 0 ≤ BP := by
    rw [hBP]
    split_ifs
    · exact le_max_left 0 equity
    · exact le_max_left 0 (equity * lev - gross)
  have hap0 : 0 ≤ BP / (px * (1 + cfg.default_slippage_bps / 10000)) :=
    div_nonneg hBP0 heff.le
  have hslipif :
      (if cfg.default_slippage_bps = 0 then (0 : ℚ) else cfg.default_slippage_bps) =
        cfg.default_slippage_bps := by
    split_ifs with h
    · exact h.symm
    · rfl
  have hapif :
      (if BP > 0 then BP / (px * (1 + cfg.default_slippage_bps / 10000)) else 0) =
        BP / (px * (1 + cfg.default_slippage_bps / 10000)) := by
    split_ifs with h
    · rfl
    · have hz : BP = 0 := le_antisymm (not_lt.mp h) hBP0
      rw [hz, zero_div]
  refine ⟨?_, ?_, ?_⟩
  · rintro (⟨hside, hcur⟩ | ⟨hside, hcur⟩) <;> subst hside
    · constructor
      · intro hred
        simp only [buying_power_clamp, ← hBP, hslipif, hapif, if_true, if_false]
        rw [if_neg (not_le.mpr hcur), if_pos hred]
        rw [min_self, max_eq_right hq.le]
      · intro hbeyond
        simp only [buying_power_clamp, ← hBP, hslipif, hapif, if_true, if_false]
        rw [if_neg (not_le.mpr hcur), if_neg (not_le.mpr hbeyond)]
        refine max_eq_right (le_min hq.le ?_)
        have h2a : (0 : ℚ) ≤ 2 * |cur| := by positivity
        linarith
    · constructor
      · intro hred
        simp only [buying_power_clamp, ← hBP, hslipif, hapif, if_true, if_false]
        rw [if_neg (by decide : ¬ (TradeSide.sell = TradeSide.buy)),
          if_neg (not_le.mpr hcur), if_pos hred]
        rw [min_self, max_eq_right hq.le]
      · intro hbeyond
        simp only [buying_power_clamp, ← hBP, hslipif, hapif, if_true, if_false]
        rw [if_neg (by decide : ¬ (TradeSide.sell = TradeSide.buy)),
          if_neg (not_le.mpr hcur), if_neg (not_le.mpr hbeyond)]
        refine max_eq_right (le_min hq.le ?_)
        have h2a : (0 : ℚ) ≤ 2 * |cur| := by positivity
        linarith
  · rintro (⟨hside, hcur⟩ | ⟨hside, hcur⟩) <;> subst hside
    · simp only [buying_power_clamp, ← hBP, hslipif, hapif, if_true, if_false]
      rw [if_pos hcur]
      exact max_eq_right (le_min hq.le hap0)
    · simp only [buying_power_clamp, ← hBP, hslipif, hapif, if_true, if_false]
      rw [if_neg (by decide : ¬ (TradeSide.sell = TradeSide.buy)), if_pos hcur]
      exact max_eq_right (le_min hq.le hap0)
  · intro ctx hspot
    simp [init_buying_power_context, hspot]

theorem C2_witness :
    buying_power_clamp { market_type := MarketType.swap } 3 TradeSide.sell 2 1 3 0 1 = 3 :=
  ((C2_theorem { market_type := MarketType.swap } 3 TradeSide.sell 2 1 3 0 1
      (by norm_num) (by norm_num) (by norm_num)).1
    (Or.inr ⟨rfl, by norm_num⟩)).1
    (by rw [show |(2 : ℚ)| = 2 from abs_of_pos (by norm_num)]; norm_num)

theorem pyOrQ_some_zero (x : ℚ) : pyOrQ (some x) 0 = x := by
  show (if x = 0 then (0 : ℚ) else x) = x
  split_ifs with h
  · exact h.symm
  · rfl

/-- C6 (amended): the paper gateway returns, for the i-th instruction, a FILLED
result echoing the instruction id and quantity; with a positive snapshot price
the execution price is `ref · (1 ± slip/10⁴)` by side and the fee is
`exec · qty · fee_bps/10⁴`; with a missing (or zero) reference price the order
is still FILLED — not rejected — with no execution price and no fee. -/
theorem C6_theorem (fee_bps : ℚ) (snapshot : Option PriceMap) (insts : List TradeInstruction)
    (i : ℕ) (inst : TradeInstruction) (hi : insts[i]? = some inst) :
    ∃ r : TxResult, (paper_execute fee_bps insts snapshot)[i]? = some r ∧
      r.status = TxStatus.filled ∧
      r.instruction_id = inst.instruction_id ∧
      r.requested_qty = inst.quantity ∧
      r.filled_qty = inst.quantity ∧
      ((snapshot.getD []).getD inst.instrument.symbol 0 = 0 →
        r.avg_exec_price = none ∧ r.fee_cost = none) ∧
      (∀ px sb, (snapshot.getD []).getD inst.instrument.symbol 0 = px →
        inst.max_slippage_bps = some sb →
        0 < px → 0 ≤ sb → sb < 10000 → 0 < inst.quantity → 0 < fee_bps →
        r.avg_exec_price = some (if inst.side = TradeSide.buy
            then px * (1 + sb / 10000) else px * (1 - sb / 10000)) ∧
        r.fee_cost = some ((if inst.side = TradeSide.buy
            then px * (1 + sb / 10000) else px * (1 - sb / 10000)) * inst.quantity *
          (fee_bps / 10000))) := by
  unfold paper_execute
  rw [List.getElem?_map, hi, Option.map_some']
  refine ⟨_, rfl, rfl, rfl, rfl, rfl, ?_, ?_⟩
  · intro h0
    simp only [h0, pyOrQ_some_zero]
    rcases hside : inst.side with _ | _ <;> simp [hside]
  · intro px sb hpx hsb hpx0 hsb0 hsb1 hq0 hfee0
    simp only [hpx, hsb, pyOrQ_some_zero]
    have hple : (0 : ℚ) < 1 + sb / 10000 := by
      have : (0 : ℚ) ≤ sb / 10000 := div_nonneg hsb0 (by norm_num)
      linarith
    have hmle : (0 : ℚ) < 1 - sb / 10000 := by
      have : sb / 10000 < 1 := (div_lt_one (by norm_num)).mpr hsb1
      linarith
    rcases hside : inst.side with _ | _
    · have hexec : 0 < px * (1 + sb / 10000) := mul_pos hpx0 hple
      have hnot : 0 < px * (1 + sb / 10000) * inst.quantity := mul_pos hexec hq0
      have hfee : 0 < px * (1 + sb / 10000) * inst.quantity * (fee_bps / 10000) :=
        mul_pos hnot (by positivity)
      simp [hside, ne_of_gt hexec, ne_of_gt hnot, ne_of_gt hfee]
    · have hexec : 0 < px * (1 - sb / 10000) := mul_pos hpx0 hmle
      have hnot : 0 < px * (1 - sb / 10000) * inst.quantity := mul_pos hexec hq0
      have hfee : 0 < px * (1 - sb / 10000) * inst.quantity * (fee_bps / 10000) :=
        mul_pos hnot (by positivity)
      simp [hside, ne_of_gt hexec, ne_of_gt hnot, ne_of_gt hfee]

/-- A BUY instruction used to exercise the paper gateway. -/
def c6inst : TradeInstruction :=
  { instruction_id := "cid:S:0", compose_id := "cid", instrument := { symbol := "S" }
    side := .buy, quantity := 2, leverage := some 1, max_slippage_bps := some 25
    meta := some { requested_target_qty := 2, current_qty := 0, final_target_qty := 2
                   action := "buy" } }

/-- C6 counterexample: with no reference price for the symbol, the paper
gateway does NOT return `REJECTED` with reason `"no_price"`; it returns a
FILLED result with no reason. -/
theorem C6_counterexample :
    (paper_execute 10 [c6inst] (some [])).map (fun r => (r.status, r.reason)) =
      [(TxStatus.filled, (none : Option String))] ∧
    ¬ ((TxStatus.filled, (none : Option String)) =
        (TxStatus.rejected, some "no_price")) := by
  constructor
  · rfl
  · decide

theorem C6_witness :
    ∃ r : TxResult, (paper_execute 10 [c6inst] (some [("S", 100)]))[0]? = some r ∧
      r.status = TxStatus.filled ∧
      r.avg_exec_price = some (401 / 4) ∧ r.fee_cost = some (401 / 2000) := by
  obtain ⟨r, h1, h2, h3, h4, h5, h6, h7⟩ :=
    C6_theorem 10 (some [("S", (100 : ℚ))]) [c6inst] 0 c6inst rfl
  have h8 := h7 100 25 (by rfl) rfl (by norm_num) (by norm_num) (by norm_num)
    (by norm_num [c6inst]) (by norm_num)
  refine ⟨r, h1, h2, ?_, ?_⟩
  · rw [h8.1]
    norm_num [c6inst]
  · rw [h8.2]
    norm_num [c6inst]

/-- C8: when `exchange_config.market_type` is absent, `None`, or trims to the
empty string, validation infers it from `trading_config.max_leverage`
(default 10): spot iff `max_leverage ≤ 1`, else swap; a provided non-empty
value is left unchanged. -/
theorem C8_theorem (ml : Option ℚ) (s : String) :
    (infer_market_type RawField.absent ml =
      RawField.strval (if ml.getD DEFAULT_MAX_LEVERAGE ≤ 1 then "spot" else "swap")) ∧
    (infer_market_type RawField.pynone ml =
      RawField.strval (if ml.getD DEFAULT_MAX_LEVERAGE ≤ 1 then "spot" else "swap")) ∧
    (pyStrip s = "" → infer_market_type (RawField.strval s) ml =
      RawField.strval (if ml.getD DEFAULT_MAX_LEVERAGE ≤ 1 then "spot" else "swap")) ∧
    (pyStrip s ≠ "" → infer_market_type (RawField.strval s) ml = RawField.strval s) := by
  refine ⟨rfl, rfl, ?_, ?_⟩
  · intro h
    simp [infer_market_type, h]
  · intro h
    simp [infer_market_type, h]

theorem C8_witness :
    infer_market_type RawField.absent (some 1) = RawField.strval "spot" ∧
    infer_market_type (RawField.strval "swap") (some 1) = RawField.strval "swap" := by
  constructor
  · have h := (C8_theorem (some 1) "swap").1
    norm_num at h
    exact h
  · exact (C8_theorem (some 1) "swap").2.2.2 (by decide)

/-- A feature vector marked only by its symbol, for the pipeline tests. -/
def c9fv (s : String) : FeatureVector :=
  { ts := 0, instrument := { symbol := s } }

/-- The candle-feature fetches, keyed by interval. -/
def c9fetch : CandleConfig → List FeatureVector :=
  fun c => if c.interval = "1s" then [c9fv "micro"] else [c9fv "medium"]

/-- C9 counterexample: with the default configurations the build output starts
with the micro (1s) candle features, not the medium (1m) ones — the order the
claim states (medium, micro, snapshot) differs from the computed order. -/
theorem C9_counterexample :
    pipeline_build default_candle_configurations c9fetch [c9fv "snapshot"] =
      [c9fv "micro", c9fv "medium", c9fv "snapshot"] ∧
    [c9fv "micro", c9fv "medium", c9fv "snapshot"] ≠
      [c9fv "medium", c9fv "micro", c9fv "snapshot"] := by
  constructor
  · rfl
  · decide

/-- C9 (amended): under the default candle configurations the pipeline returns
the micro-interval (1s) candle features first, then the medium-interval (1m)
candle features, then the market-snapshot features. -/
theorem C9_theorem (fetch : CandleConfig → List FeatureVector)
    (market : List FeatureVector) :
    pipeline_build default_candle_configurations fetch market =
      fetch { interval := "1s", lookback := 180 } ++
        (fetch { interval := "1m", lookback := 240 } ++ market) := by
  simp [pipeline_build, default_candle_configurations]

theorem execute_single_id (env : ExchangeEnv) (inst : TradeInstruction) (r : TxResult)
    (h : execute_single env inst = Except.ok r) :
    r.instruction_id = inst.instruction_id := by
  simp only [execute_single] at h
  split_ifs at h with h1
  · cases h
    rfl
  · simp only [submit_order] at h
    rcases hmin : ExchangeEnv.min_check env inst.instrument.symbol
        (env.convert_amount inst.instrument.symbol inst.quantity) with _ | reason
    · rw [hmin] at h
      simp only at h
      rcases hmar : ExchangeEnv.margin_check env inst.instrument.symbol
          (env.convert_amount inst.instrument.symbol inst.quantity) with _ | reason2
      · rw [hmar] at h
        simp only at h
        rcases hord : ExchangeEnv.create_order env inst.instrument.symbol inst.side
            (env.convert_amount inst.instrument.symbol inst.quantity) with e | order
        · rw [hord] at h
          simp at h
        · rw [hord] at h
          simp only at h
          cases h
          rfl
      · rw [hmar] at h
        simp only at h
        cases h
        rfl
    · rw [hmin] at h
      simp only at h
      cases h
      rfl

theorem execute_single_requested (env : ExchangeEnv) (inst : TradeInstruction) (r : TxResult)
    (h : execute_single env inst = Except.ok r)
    (hconv : env.convert_amount inst.instrument.symbol inst.quantity = inst.quantity) :
    r.requested_qty = inst.quantity := by
  simp only [execute_single] at h
  split_ifs at h with h1
  · cases h
    rfl
  · simp only [submit_order] at h
    rcases hmin : ExchangeEnv.min_check env inst.instrument.symbol
        (env.convert_amount inst.instrument.symbol inst.quantity) with _ | reason
    · rw [hmin] at h
      simp only at h
      rcases hmar : ExchangeEnv.margin_check env inst.instrument.symbol
          (env.convert_amount inst.instrument.symbol inst.quantity) with _ | reason2
      · rw [hmar] at h
        simp only at h
        rcases hord : ExchangeEnv.create_order env inst.instrument.symbol inst.side
            (env.convert_amount inst.instrument.symbol inst.quantity) with e | order
        · rw [hord] at h
          simp at h
        · rw [hord] at h
          simp only at h
          cases h
          exact hconv
      · rw [hmar] at h
        simp only at h
        cases h
        rfl
    · rw [hmin] at h
      simp only at h
      cases h
      rfl

/-- C10 (amended): both gateways return exactly one result per instruction, in
input order, echoing the instruction id; the paper gateway always echoes the
requested quantity, and the live gateway echoes it whenever the exchange-side
amount conversion leaves it unchanged (as well as on every reject/error path);
a per-instruction exception in the live gateway yields an ERROR result with
zero filled quantity instead of dropping the entry. -/
theorem C10_theorem :
    (∀ (fee_bps : ℚ) (snapshot : Option PriceMap) (insts : List TradeInstruction),
      (paper_execute fee_bps insts snapshot).length = insts.length ∧
      ∀ (i : ℕ) (inst : TradeInstruction), insts[i]? = some inst →
        ∃ r, (paper_execute fee_bps insts snapshot)[i]? = some r ∧
          r.instruction_id = inst.instruction_id ∧ r.requested_qty = inst.quantity) ∧
    (∀ (env : ExchangeEnv) (insts : List TradeInstruction),
      (ccxt_execute env insts).length = insts.length ∧
      ∀ (i : ℕ) (inst : TradeInstruction), insts[i]? = some inst →
        ∃ r, (ccxt_execute env insts)[i]? = some r ∧
          r.instruction_id = inst.instruction_id ∧
          (∀ e, execute_single env inst = Except.error e →
            r.status = TxStatus.error ∧ r.filled_qty = 0 ∧
              r.requested_qty = inst.quantity) ∧
          (env.convert_amount inst.instrument.symbol inst.quantity = inst.quantity →
            r.requested_qty = inst.quantity)) := by
  constructor
  · intro fee pm insts
    refine ⟨by simp [paper_execute], ?_⟩
    intro i inst hi
    unfold paper_execute
    rw [List.getElem?_map, hi, Option.map_some']
    exact ⟨_, rfl, rfl, rfl⟩
  · intro env insts
    refine ⟨by simp [ccxt_execute], ?_⟩
    intro i inst hi
    unfold ccxt_execute
    rw [List.getElem?_map, hi, Option.map_some']
    rcases hx : execute_single env inst with e | r0 <;> simp only [hx]
    · refine ⟨_, rfl, rfl, ?_, ?_⟩
      · intro e2 _
        exact ⟨rfl, rfl, rfl⟩
      · intro _
        rfl
    · refine ⟨_, rfl, execute_single_id env inst r0 hx, ?_, ?_⟩
      · intro e2 he2
        simp at he2
      · intro hconv
        exact execute_single_requested env inst r0 hx hconv

/-- An instruction used to probe the live gateway loop. -/
def c10inst : TradeInstruction :=
  { instruction_id := "cid:S:0", compose_id := "cid", instrument := { symbol := "S" }
    side := .buy, quantity := 2, leverage := some 1, max_slippage_bps := some 25
    meta := some { requested_target_qty := 2, current_qty := 0, final_target_qty := 2
                   action := "buy" } }

/-- An exchange whose contract-size conversion halves the base amount
(e.g. an OKX contract market with `contractSize = 2`). -/
def c10env : ExchangeEnv :=
  { convert_amount := fun _ q => q / 2
    min_check := fun _ _ => none
    margin_check := fun _ _ => none
    create_order := fun _ _ a => Except.ok { filled := a } }

/-- An exchange with identity amount conversion whose order creation fails. -/
def c10errenv : ExchangeEnv :=
  { convert_amount := fun _ q => q
    min_check := fun _ _ => none
    margin_check := fun _ _ => none
    create_order := fun _ _ _ => Except.error "network down" }

/-- C10 counterexample: on a successful live submission the result's
`requested_qty` is the contract-converted amount, not the instruction's
quantity, so the claim's `requested_qty` conjunct fails for the live gateway. -/
theorem C10_counterexample :
    (ccxt_execute c10env [c10inst]).map TxResult.requested_qty = [1] ∧
    c10inst.quantity = 2 ∧ ¬ ((1 : ℚ) = 2) := by
  refine ⟨?_, rfl, by norm_num⟩
  norm_num +decide [ccxt_execute, execute_single, submit_order, c10env, c10inst, pyOrQ]

theorem C10_witness :
    ∃ r, (ccxt_execute c10errenv [c10inst])[0]? = some r ∧
      r.instruction_id = c10inst.instruction_id ∧
      r.status = TxStatus.error ∧ r.filled_qty = 0 ∧
      r.requested_qty = c10inst.quantity := by
  obtain ⟨hlen, hmem⟩ := C10_theorem.2 c10errenv [c10inst]
  obtain ⟨r, h1, h2, h3, h4⟩ := hmem 0 c10inst rfl
  have herr := h3 "Failed to create order for S: network down" (by rfl)
  exact ⟨r, h1, h2, herr.1, herr.2.1, herr.2.2⟩

/-- The claim predicate of C1: an emitted instruction simultaneously satisfies
every exchange filter (against the constraints and reference prices in
effect), its leverage respects `max_leverage`, and spot leverage is 1. -/
def satisfies_filters (cfg : ComposerConfig) (c : Constraints) (pm : PriceMap)
    (i : TradeInstruction) : Prop :=
  cfg.quantity_precision < i.quantity ∧
  (∀ m, c.min_trade_qty = some m → m ≤ i.quantity) ∧
  (∀ M, c.max_order_qty = some M → i.quantity ≤ M) ∧
  (∀ s, c.quantity_step = some s → 0 < s → i.quantity = (⌊i.quantity / s⌋ : ℚ) * s) ∧
  (∀ mn px, c.min_notional = some mn → pm.get? i.instrument.symbol = some px →
    mn ≤ i.quantity * px) ∧
  (∀ L lv, c.max_leverage = some L → i.leverage = some lv → lv ≤ L) ∧
  (cfg.market_type = MarketType.spot → i.leverage = some 1)

/-- Derivatives composer with constructor defaults. -/
def c1cfg : ComposerConfig := { market_type := .swap }

/-- Exchange filters with a unit quantity step and unit minimum quantity. -/
def c1c : Constraints :=
  { max_leverage := some 1, quantity_step := some 1, min_trade_qty := some 1 }

def c1ctx : ComposeContext :=
  { ts := 0, compose_id := "cid"
    portfolio := { ts := 0, cash := 0, positions := [], gross_exposure := some 0
                   constraints := some c1c, total_value := some (5 / 2) }
    market_snapshot := some [("S", 1)] }

def c1plan : LlmPlanProposal :=
  { ts := 0, items := [{ instrument := { symbol := "S" }, action := .buy, target_qty := 10 }] }

/-- The instruction the normalizer emits on `c1ctx`/`c1plan`: the notional cap
trims the quantity to 5/2 and the buying-power clamp to 1000/401, which is no
longer a multiple of the unit quantity step. -/
def c1instr : TradeInstruction :=
  create_instruction c1cfg c1ctx 0
    { instrument := { symbol := "S" }, action := .buy, target_qty := 10 }
    "S" TradeSide.buy (1000 / 401) 1 0 10

/-- C1 counterexample: the emitted instruction's quantity (1000/401) violates
the `quantity_step` filter, because the notional/leverage cap and the
buying-power clamp run after the filters and are not re-checked. -/
theorem C1_counterexample :
    normalize_plan c1cfg c1ctx c1plan = [c1instr] ∧
    ¬ satisfies_filters c1cfg c1c (c1ctx.market_snapshot.getD []) c1instr := by
  constructor
  · norm_num +decide [normalize_plan, init_buying_power_context, process_items, process_sub,
      resolve_target_quantity, normalize_quantity, apply_quantity_filters,
      quantity_after_caps, quantity_zero_checks, notional_leverage_cap,
      buying_power_clamp, posGet, posSet, count_active, max_positions_reached,
      pyOrQ, PriceMap.get?, PriceMap.getD, c1cfg, c1c, c1ctx, c1plan, c1instr,
      min_def, max_def, abs_of_pos, Option.getD]
  · intro hs
    have h := hs.2.2.2.1 1 rfl one_pos
    have hq : c1instr.quantity = 1000 / 401 := rfl
    rw [hq] at h
    norm_num at h

/-- Shape of every instruction emitted by the sub-step loop: it is a
`create_instruction` at sub-index `s` within range, whose quantity is the
normalizer output for some local current quantity, sub-target, and running
gross exposure, and that output exceeded the precision guard. -/
theorem process_sub_mem (cfg : ComposerConfig) (ctx : ComposeContext) (e l : ℚ)
    (c : Constraints) (pm : PriceMap) (idx : ℕ) (item : LlmDecisionItem) (symbol : String) :
    ∀ (subs : List ℚ) (subi : ℕ) (local0 : ℚ) (st : PlanState) (i : TradeInstruction),
      i ∈ (process_sub cfg ctx e l c pm idx item symbol subs subi local0 st).1 →
      ∃ (s : ℕ) (cur tgt g : ℚ),
        subi ≤ s ∧ s < subi + subs.length ∧
        cfg.quantity_precision <
          (normalize_quantity cfg symbol |tgt - cur|
            (if 0 < tgt - cur then TradeSide.buy else TradeSide.sell) cur c e l g pm).1 ∧
        i = create_instruction cfg ctx (idx * 10 + s) item symbol
          (if 0 < tgt - cur then TradeSide.buy else TradeSide.sell)
          ((normalize_quantity cfg symbol |tgt - cur|
            (if 0 < tgt - cur then TradeSide.buy else TradeSide.sell) cur c e l g pm).1)
          (if cfg.market_type = MarketType.spot then 1
           else max 1 (min ((item.leverage).getD 1)
             ((c.max_leverage).getD ((item.leverage).getD 1))))
          cur tgt := by
  intro subs
  induction subs with
  | nil =>
    intro subi local0 st i hmem
    simp [process_sub] at hmem
  | cons t rest ih =>
    intro subi local0 st i hmem
    simp only [process_sub] at hmem
    by_cases h1 : |t - local0| ≤ cfg.quantity_precision
    · rw [if_pos h1] at hmem
      obtain ⟨s, cur, tgt, g, hs1, hs2, hq, heq⟩ := ih (subi + 1) local0 st i hmem
      exact ⟨s, cur, tgt, g, by omega, by simp only [List.length_cons]; omega, hq, heq⟩
    · rw [if_neg h1] at hmem
      by_cases h2 : (|local0| ≤ cfg.quantity_precision ∧ cfg.quantity_precision < |t|) ∧
          max_positions_reached c.max_positions st.active = true
      · rw [if_pos h2] at hmem
        obtain ⟨s, cur, tgt, g, hs1, hs2, hq, heq⟩ := ih (subi + 1) local0 st i hmem
        exact ⟨s, cur, tgt, g, by omega, by simp only [List.length_cons]; omega, hq, heq⟩
      · rw [if_neg h2] at hmem
        by_cases h3 : 0 < t - local0
        · rw [if_pos h3] at hmem
          by_cases h4 : (normalize_quantity cfg symbol |t - local0| TradeSide.buy local0 c
              e l st.gross pm).1 ≤ cfg.quantity_precision
          · rw [if_pos h4] at hmem
            obtain ⟨s, cur, tgt, g, hs1, hs2, hq, heq⟩ := ih (subi + 1) local0 st i hmem
            exact ⟨s, cur, tgt, g, by omega, by simp only [List.length_cons]; omega, hq, heq⟩
          · rw [if_neg h4] at hmem
            rcases List.mem_cons.mp hmem with heqi | hmem2
            · refine ⟨subi, local0, t, st.gross, le_refl subi,
                by simp only [List.length_cons]; omega, ?_, ?_⟩
              · rw [if_pos h3]
                exact not_le.mp h4
              · rw [if_pos h3]
                exact heqi
            · obtain ⟨s, cur, tgt, g, hs1, hs2, hq, heq⟩ := ih (subi + 1) _ _ i hmem2
              exact ⟨s, cur, tgt, g, by omega, by simp only [List.length_cons]; omega, hq, heq⟩
        · rw [if_neg h3] at hmem
          by_cases h4 : (normalize_quantity cfg symbol |t - local0| TradeSide.sell local0 c
              e l st.gross pm).1 ≤ cfg.quantity_precision
          · rw [if_pos h4] at hmem
            obtain ⟨s, cur, tgt, g, hs1, hs2, hq, heq⟩ := ih (subi + 1) local0 st i hmem
            exact ⟨s, cur, tgt, g, by omega, by simp only [List.length_cons]; omega, hq, heq⟩
          · rw [if_neg h4] at hmem
            rcases List.mem_cons.mp hmem with heqi | hmem2
            · refine ⟨subi, local0, t, st.gross, le_refl subi,
                by simp only [List.length_cons]; omega, ?_, ?_⟩
              · rw [if_neg h3]
                exact not_le.mp h4
              · rw [if_neg h3]
                exact heqi
            · obtain ⟨s, cur, tgt, g, hs1, hs2, hq, heq⟩ := ih (subi + 1) _ _ i hmem2
              exact ⟨s, cur, tgt, g, by omega, by simp only [List.length_cons]; omega, hq, heq⟩

/-- Every instruction returned by the item loop comes from the sub-step loop of
some plan item `j`, run at item index `idx0 + j` on that item's symbol with at
most two sub-targets. -/
theorem process_items_mem (cfg : ComposerConfig) (ctx : ComposeContext) (e l : ℚ)
    (c : Constraints) (pm : PriceMap) :
    ∀ (items : List LlmDecisionItem) (idx0 : ℕ) (st : PlanState) (i : TradeInstruction),
      i ∈ process_items cfg ctx e l c pm items idx0 st →
      ∃ (j : ℕ) (item : LlmDecisionItem) (subs : List ℚ) (cur : ℚ) (st0 : PlanState),
        items[j]? = some item ∧ subs.length ≤ 2 ∧
        i ∈ (process_sub cfg ctx e l c pm (idx0 + j) item item.instrument.symbol
          subs 0 cur st0).1 := by
  intro items
  induction items with
  | nil =>
    intro idx0 st i hmem
    simp [process_items] at hmem
  | cons item rest ih =>
    intro idx0 st i hmem
    simp only [process_items, List.mem_append] at hmem
    rcases hmem with hmem | hmem
    · refine ⟨0, item,
        (if (posGet st.positions item.instrument.symbol) *
            (if cfg.market_type = MarketType.spot ∧
                resolve_target_quantity item (posGet st.positions item.instrument.symbol)
                  c.max_position_qty < 0 then 0
             else resolve_target_quantity item (posGet st.positions item.instrument.symbol)
                  c.max_position_qty) < 0 then
          [0, (if cfg.market_type = MarketType.spot ∧
                resolve_target_quantity item (posGet st.positions item.instrument.symbol)
                  c.max_position_qty < 0 then 0
               else resolve_target_quantity item (posGet st.positions item.instrument.symbol)
                  c.max_position_qty)]
         else
          [(if cfg.market_type = MarketType.spot ∧
                resolve_target_quantity item (posGet st.positions item.instrument.symbol)
                  c.max_position_qty < 0 then 0
            else resolve_target_quantity item (posGet st.positions item.instrument.symbol)
                  c.max_position_qty)]),
        posGet st.positions item.instrument.symbol, st, by simp, ?_, ?_⟩
      · split_ifs <;> simp
      · rw [Nat.add_zero]
        exact hmem
    · obtain ⟨j, item2, subs, cur, st0, hj, hlen, hm⟩ := ih (idx0 + 1) _ i hmem
      refine ⟨j + 1, item2, subs, cur, st0, by simpa using hj, hlen, ?_⟩
      have harith : idx0 + 1 + j = idx0 + (j + 1) := by omega
      rw [harith] at hm
      exact hm

/-- C4: the normalizer is a pure function — re-running it on the same context
and plan yields the identical instruction list — and every emitted instruction
id has the deterministic form `"{compose_id}:{symbol}:{j*10+s}"` built from the
plan-item index `j` and sub-step index `s < 2`, with the item's instrument. -/
theorem C4_theorem (cfg : ComposerConfig) (ctx : ComposeContext) (plan : LlmPlanProposal) :
    normalize_plan cfg ctx plan = normalize_plan cfg ctx plan ∧
    ∀ i ∈ normalize_plan cfg ctx plan,
      ∃ (j s : ℕ) (item : LlmDecisionItem),
        plan.items[j]? = some item ∧ s < 2 ∧
        i.compose_id = ctx.compose_id ∧
        i.instrument = item.instrument ∧
        i.instruction_id =
          ctx.compose_id ++ ":" ++ item.instrument.symbol ++ ":" ++ toString (j * 10 + s) := by
  refine ⟨rfl, ?_⟩
  intro i hi
  simp only [normalize_plan] at hi
  obtain ⟨j, item, subs, cur, st0, hj, hlen, hm⟩ :=
    process_items_mem cfg ctx _ _ _ _ plan.items 0 _ i hi
  obtain ⟨s, cur2, tgt, g, hs0, hs2, hq, heq⟩ :=
    process_sub_mem cfg ctx _ _ _ _ (0 + j) item item.instrument.symbol subs 0 cur st0 i hm
  refine ⟨j, s, item, hj, by omega, ?_, ?_, ?_⟩
  · rw [heq]
    rfl
  · rw [heq]
    rfl
  · rw [heq]
    simp [create_instruction]

/-- Derivatives composer for the C4 witness. -/
def c4cfg : ComposerConfig := { market_type := .swap }

def c4ctx : ComposeContext :=
  { ts := 0, compose_id := "cid4"
    portfolio := { ts := 0, cash := 0, constraints := some {} } }

def c4item : LlmDecisionItem :=
  { instrument := { symbol := "S" }, action := .buy, target_qty := 1 }

def c4plan : LlmPlanProposal := { ts := 0, items := [c4item] }

def c4instr : TradeInstruction :=
  create_instruction c4cfg c4ctx 0 c4item "S" TradeSide.buy 1 1 0 1

theorem C4_witness :
    ∃ (j s : ℕ) (item : LlmDecisionItem),
      c4plan.items[j]? = some item ∧ s < 2 ∧
      c4instr.compose_id = c4ctx.compose_id ∧
      c4instr.instrument = item.instrument ∧
      c4instr.instruction_id =
        c4ctx.compose_id ++ ":" ++ item.instrument.symbol ++ ":" ++ toString (j * 10 + s) := by
  have he : normalize_plan c4cfg c4ctx c4plan = [c4instr] := by
    norm_num +decide [normalize_plan, init_buying_power_context, process_items, process_sub,
      resolve_target_quantity, normalize_quantity, apply_quantity_filters,
      quantity_after_caps, quantity_zero_checks, notional_leverage_cap,
      buying_power_clamp, posGet, posSet, count_active, max_positions_reached,
      pyOrQ, PriceMap.get?, PriceMap.getD, c4cfg, c4ctx, c4plan, c4item, c4instr,
      min_def, max_def, abs_of_pos, Option.getD]
  have hm : c4instr ∈ normalize_plan c4cfg c4ctx c4plan := by
    rw [he]
    exact List.mem_singleton.mpr rfl
  exact (C4_theorem c4cfg c4ctx c4plan).2 c4instr hm

/-- C1 (amended): every emitted instruction's quantity exceeds the precision
threshold and respects `max_order_qty`; spot instructions carry leverage 1 and
derivative leverage is clamped to `max_leverage` whenever that bound is at
least 1.  The remaining filters (step multiple, `min_trade_qty`,
`min_notional`) hold for the intermediate post-filter quantity but can be
broken by the later caps, as the counterexample shows. -/
theorem C1_theorem (cfg : ComposerConfig) (ctx : ComposeContext) (plan : LlmPlanProposal)
    (hprec : 0 ≤ cfg.quantity_precision) :
    ∀ i ∈ normalize_plan cfg ctx plan,
      cfg.quantity_precision < i.quantity ∧
      (∀ M, (init_buying_power_context cfg ctx).constraints.max_order_qty = some M →
        i.quantity ≤ M) ∧
      (cfg.market_type = MarketType.spot → i.leverage = some 1) ∧
      (∀ L, (init_buying_power_context cfg ctx).constraints.max_leverage = some L →
        1 ≤ L → ∃ lv, i.leverage = some lv ∧ lv ≤ L) := by
  intro i hi
  simp only [normalize_plan] at hi
  obtain ⟨j, item, subs, cur, st0, hj, hlen, hm⟩ :=
    process_items_mem cfg ctx _ _ _ _ plan.items 0 _ i hi
  obtain ⟨s, cur2, tgt, g, hs0, hs2, hq, heq⟩ :=
    process_sub_mem cfg ctx _ _ _ _ (0 + j) item item.instrument.symbol subs 0 cur st0 i hm
  refine ⟨?_, ?_, ?_, ?_⟩
  · rw [heq]
    simpa [create_instruction] using hq
  · intro M hM
    rw [heq]
    simp only [create_instruction]
    have hb := normalize_quantity_le cfg item.instrument.symbol |tgt - cur2|
      (if 0 < tgt - cur2 then TradeSide.buy else TradeSide.sell) cur2
      (init_buying_power_context cfg ctx).constraints
      (init_buying_power_context cfg ctx).equity
      (init_buying_power_context cfg ctx).allowed_lev g
      (init_buying_power_context cfg ctx).price_map
    rcases apply_quantity_filters_spec item.instrument.symbol |tgt - cur2|
        (pyOrQ (init_buying_power_context cfg ctx).constraints.quantity_step 0)
        (pyOrQ (init_buying_power_context cfg ctx).constraints.min_trade_qty 0)
        (init_buying_power_context cfg ctx).constraints.max_order_qty
        (init_buying_power_context cfg ctx).constraints.min_notional
        (init_buying_power_context cfg ctx).price_map with h0 | ⟨hpos, hle, hmax⟩
    · exfalso
      have h2 := hb.2
      rw [h0] at h2
      linarith
    · exact le_trans hb.2 (hmax M hM)
  · intro hspot
    rw [heq]
    simp [create_instruction, hspot]
  · intro L hL h1L
    by_cases hspot : cfg.market_type = MarketType.spot
    · refine ⟨1, ?_, h1L⟩
      rw [heq]
      simp [create_instruction, hspot]
    · refine ⟨max 1 (min ((item.leverage).getD 1) L), ?_, max_le h1L (min_le_right _ _)⟩
      rw [heq]
      simp [create_instruction, hspot, hL]

theorem C1_witness :
    c1cfg.quantity_precision < c1instr.quantity ∧
    (∀ L, (init_buying_power_context c1cfg c1ctx).constraints.max_leverage = some L →
      1 ≤ L → ∃ lv, c1instr.leverage = some lv ∧ lv ≤ L) := by
  have he : normalize_plan c1cfg c1ctx c1plan = [c1instr] := by
    norm_num +decide [normalize_plan, init_buying_power_context, process_items, process_sub,
      resolve_target_quantity, normalize_quantity, apply_quantity_filters,
      quantity_after_caps, quantity_zero_checks, notional_leverage_cap,
      buying_power_clamp, posGet, posSet, count_active, max_positions_reached,
      pyOrQ, PriceMap.get?, PriceMap.getD, c1cfg, c1c, c1ctx, c1plan, c1instr,
      min_def, max_def, abs_of_pos, Option.getD]
  have hm : c1instr ∈ normalize_plan c1cfg c1ctx c1plan := by
    rw [he]
    exact List.mem_singleton.mpr rfl
  have h := C1_theorem c1cfg c1ctx c1plan (by norm_num [c1cfg]) c1instr hm
  exact ⟨h.1, h.2.2.2⟩

/-- Derivatives composer for the C3 probes. -/
def c3cfg : ComposerConfig := { market_type := .swap }

def c3item : LlmDecisionItem :=
  { instrument := { symbol := "S" }, action := .sell, target_qty := 1 }

def c3ctx : ComposeContext :=
  { ts := 0, compose_id := "cid"
    portfolio := { ts := 0, cash := 0, positions := [("S", { quantity := 5 })]
                   constraints := some { max_order_qty := some 3 } } }

def c3plan : LlmPlanProposal := { ts := 0, items := [c3item] }

/-- C3 counterexample: with current position +5, resolved target −1 (a
direction flip) and `max_order_qty = 3`, the normalizer emits two instructions
but the first close stops at +2 (not zero) and the second order crosses zero
(from +2 to −1), refuting both the close-to-zero and the no-crossing parts of
the claim. -/
theorem C3_counterexample :
    resolve_target_quantity c3item 5 none = -1 ∧
    (5 : ℚ) * (-1) < 0 ∧
    (normalize_plan c3cfg c3ctx c3plan).map
      (fun i => (i.quantity, i.meta.map TradeMeta.current_qty,
                 i.meta.map TradeMeta.final_target_qty)) =
      [(3, some 5, some 2), (3, some 2, some (-1))] ∧
    ((0 : ℚ) < 2 ∧ (-1 : ℚ) < 0) := by
  refine ⟨by norm_num +decide [resolve_target_quantity, c3item, abs_of_pos], by norm_num, ?_,
    by norm_num⟩
  norm_num +decide [normalize_plan, init_buying_power_context, process_items, process_sub,
    resolve_target_quantity, normalize_quantity, apply_quantity_filters,
    quantity_after_caps, quantity_zero_checks, notional_leverage_cap,
    buying_power_clamp, posGet, posSet, count_active, max_positions_reached,
    pyOrQ, PriceMap.get?, PriceMap.getD, c3cfg, c3ctx, c3plan, c3item,
    create_instruction, min_def, max_def, abs_of_pos, Option.getD]

/-- A portfolio holding `cur` of one symbol, with no binding constraints and no
market snapshot. -/
def flip_context (cur : ℚ) (symbol cid : String) (ts0 : ℤ) : ComposeContext :=
  { ts := ts0, compose_id := cid
    portfolio := { ts := ts0, cash := 0, positions := [(symbol, { quantity := cur })]
                   constraints := some {} } }

def flip_item (symbol : String) (target : ℚ) : LlmDecisionItem :=
  { instrument := { symbol := symbol }
    action := if target < 0 then .sell else .buy
    target_qty := target }

/-- C3 (amended): for a plan item whose resolved target flips the position
direction, the normalizer processes two sub-steps (close to zero, then open);
when no guardrail reduces or filters the sub-step quantities (here: no binding
constraints and no reference price) exactly two instructions are emitted in
order — a close of the full current position ending at zero, then an open of
the full target from zero — and neither crosses zero.  When guardrails cut a
sub-step quantity, fewer instructions may be emitted and an emitted order may
cross zero, as the counterexample shows. -/
theorem C3_theorem (cfg : ComposerConfig) (cur target : ℚ) (symbol cid : String) (ts0 : ℤ)
    (hns : cfg.market_type ≠ MarketType.spot)
    (hprec : 0 ≤ cfg.quantity_precision)
    (hcur : cfg.quantity_precision < |cur|) (htgt : cfg.quantity_precision < |target|)
    (hflip : cur * target < 0) :
    normalize_plan cfg (flip_context cur symbol cid ts0)
        { ts := ts0, items := [flip_item symbol target] } =
      [create_instruction cfg (flip_context cur symbol cid ts0) 0 (flip_item symbol target)
         symbol (if 0 < cur then TradeSide.sell else TradeSide.buy) |cur| 1 cur 0,
       create_instruction cfg (flip_context cur symbol cid ts0) 1 (flip_item symbol target)
         symbol (if 0 < target then TradeSide.buy else TradeSide.sell) |target| 1 0 target] := by
  have hres : resolve_target_quantity (flip_item symbol target) cur none = target := by
    rcases mul_neg_iff.mp hflip with ⟨hc, ht⟩ | ⟨hc, ht⟩
    · simp [resolve_target_quantity, flip_item, ht, abs_of_neg ht]
    · have : ¬ (target < 0) := not_lt.mpr ht.le
      simp [resolve_target_quantity, flip_item, this, abs_of_pos ht]
  rcases mul_neg_iff.mp hflip with ⟨hc, ht⟩ | ⟨hc, ht⟩
  · have habs_cur : |cur| = cur := abs_of_pos hc
    have habs_tgt : |target| = -target := abs_of_neg ht
    have hn1 : ¬ (|cur| ≤ cfg.quantity_precision) := not_le.mpr hcur
    have hn2 : ¬ (|target| ≤ cfg.quantity_precision) := not_le.mpr htgt
    have hnq1 := normalize_quantity_trivial cfg symbol |cur| TradeSide.sell cur 0 1 0 hprec hcur
    have hnq2 := normalize_quantity_trivial cfg symbol |target| TradeSide.sell 0 0 1 0 hprec htgt
    have hncur : ¬ (cur < 0) := not_lt.mpr hc.le
    have hntgt : ¬ (0 < target) := not_lt.mpr ht.le
    have hn1a : ¬ (cur ≤ cfg.quantity_precision) := by rwa [habs_cur] at hn1
    have hn2a : ¬ (-target ≤ cfg.quantity_precision) := by rwa [habs_tgt] at hn2
    have hnq1a : normalize_quantity cfg symbol cur TradeSide.sell cur {} 0 1 0 [] =
        (cur, 0) := by simpa [habs_cur] using hnq1
    have hnq2a : normalize_quantity cfg symbol (-target) TradeSide.sell 0 {} 0 1 0 [] =
        (-target, 0) := by simpa [habs_tgt] using hnq2
    simp [normalize_plan, flip_context, init_buying_power_context,
      process_items, process_sub, resolve_target_quantity, flip_item, posGet, posSet,
      count_active, max_positions_reached, pyOrQ, PriceMap.get?, PriceMap.getD,
      hres, hns, hflip, hn1, hn2, hnq1, hnq2, hncur, hntgt, hc, ht,
      hn1a, hn2a, hnq1a, hnq2a,
      abs_of_pos hc, abs_of_neg ht, hprec, sub_zero, zero_sub, neg_neg, add_neg_cancel]
  · have habs_cur : |cur| = -cur := abs_of_neg hc
    have habs_tgt : |target| = target := abs_of_pos ht
    have hn1 : ¬ (|cur| ≤ cfg.quantity_precision) := not_le.mpr hcur
    have hn2 : ¬ (|target| ≤ cfg.quantity_precision) := not_le.mpr htgt
    have hnq1 := normalize_quantity_trivial cfg symbol |cur| TradeSide.buy cur 0 1 0 hprec hcur
    have hnq2 := normalize_quantity_trivial cfg symbol |target| TradeSide.buy 0 0 1 0 hprec htgt
    have hncur : ¬ (0 < cur) := not_lt.mpr hc.le
    have hntgt : ¬ (target < 0) := not_lt.mpr ht.le
    have hn1a : ¬ (-cur ≤ cfg.quantity_precision) := by rwa [habs_cur] at hn1
    have hn2a : ¬ (target ≤ cfg.quantity_precision) := by rwa [habs_tgt] at hn2
    have hnq1a : normalize_quantity cfg symbol (-cur) TradeSide.buy cur {} 0 1 0 [] =
        (-cur, 0) := by simpa [habs_cur] using hnq1
    have hnq2a : normalize_quantity cfg symbol target TradeSide.buy 0 {} 0 1 0 [] =
        (target, 0) := by simpa [habs_tgt] using hnq2
    simp [normalize_plan, flip_context, init_buying_power_context,
      process_items, process_sub, resolve_target_quantity, flip_item, posGet, posSet,
      count_active, max_positions_reached, pyOrQ, PriceMap.get?, PriceMap.getD,
      hres, hns, hflip, hn1, hn2, hnq1, hnq2, hncur, hntgt, hc, ht,
      hn1a, hn2a, hnq1a, hnq2a,
      abs_of_neg hc, abs_of_pos ht, hprec, sub_zero, zero_sub, neg_neg, add_neg_cancel]


theorem C3_witness :
    normalize_plan { market_type := .swap } (flip_context 5 "S" "cid3" 0)
        { ts := 0, items := [flip_item "S" (-1)] } =
      [create_instruction { market_type := .swap } (flip_context 5 "S" "cid3" 0) 0
         (flip_item "S" (-1)) "S" (if (0 : ℚ) < 5 then TradeSide.sell else TradeSide.buy)
         |(5 : ℚ)| 1 5 0,
       create_instruction { market_type := .swap } (flip_context 5 "S" "cid3" 0) 1
         (flip_item "S" (-1)) "S" (if (0 : ℚ) < -1 then TradeSide.buy else TradeSide.sell)
         |(-1 : ℚ)| 1 0 (-1)] :=
  C3_theorem { market_type := .swap } 5 (-1) "S" "cid3" 0 (by decide) (by norm_num)
    (by rw [abs_of_pos (show (0 : ℚ) < 5 by norm_num)]; norm_num)
    (by rw [abs_of_neg (show (-1 : ℚ) < 0 by norm_num)]; norm_num)
    (by norm_num)

theorem posGet_nonneg (l : List (String × ℚ)) (s : String)
    (h : ∀ p ∈ l, 0 ≤ p.2) : 0 ≤ posGet l s := by
  induction l with
  | nil => simp [posGet]
  | cons p rest ih =>
    simp only [posGet]
    split_ifs
    · exact h p (List.mem_cons_self p rest)
    · exact ih (fun q hq => h q (List.mem_cons_of_mem p hq))

theorem posSet_nonneg (s : String) (v : ℚ) (hv : 0 ≤ v) :
    ∀ (l : List (String × ℚ)), (∀ p ∈ l, 0 ≤ p.2) → ∀ p ∈ posSet l s v, 0 ≤ p.2 := by
  intro l
  induction l with
  | nil =>
    intro _ p hp
    simp [posSet] at hp
    rw [hp]
    exact hv
  | cons q rest ih =>
    intro h p hp
    simp only [posSet] at hp
    split_ifs at hp with hq
    · rcases List.mem_cons.mp hp with rfl | hp2
      · exact hv
      · exact h p (List.mem_cons_of_mem q hp2)
    · rcases List.mem_cons.mp hp with rfl | hp2
      · exact h _ (List.mem_cons_self _ _)
      · exact ih (fun r hr => h r (List.mem_cons_of_mem q hr)) p hp2

theorem create_instruction_meta_bounds (cfg : ComposerConfig) (ctx : ComposeContext)
    (idx : ℕ) (item : LlmDecisionItem) (symbol : String) (side : TradeSide)
    (q flev cur tgt : ℚ) (hcur : 0 ≤ cur) (htgt : 0 ≤ tgt)
    (hfin : 0 ≤ cur + (if side = TradeSide.buy then q else -q)) :
    ∃ m, (create_instruction cfg ctx idx item symbol side q flev cur tgt).meta = some m ∧
      0 ≤ m.current_qty ∧ 0 ≤ m.final_target_qty ∧ 0 ≤ m.requested_target_qty :=
  ⟨_, rfl, hcur, hfin, htgt⟩

/-- Sub-step loop invariant on spot-safe inputs: when the local current
quantity, every sub-target, and every tracked position are nonnegative, every
emitted instruction's metadata records nonnegative current, final, and
requested quantities, and the tracked positions stay nonnegative. -/
theorem process_sub_spot (cfg : ComposerConfig) (ctx : ComposeContext) (e l : ℚ)
    (c : Constraints) (pm : PriceMap) (idx : ℕ) (item : LlmDecisionItem) (symbol : String)
    (hprec : 0 ≤ cfg.quantity_precision) :
    ∀ (subs : List ℚ) (subi : ℕ) (local0 : ℚ) (st : PlanState),
      (∀ t ∈ subs, 0 ≤ t) → 0 ≤ local0 → (∀ q ∈ st.positions, 0 ≤ q.2) →
      (∀ i ∈ (process_sub cfg ctx e l c pm idx item symbol subs subi local0 st).1,
        ∃ m, i.meta = some m ∧ 0 ≤ m.current_qty ∧ 0 ≤ m.final_target_qty ∧
          0 ≤ m.requested_target_qty) ∧
      (∀ q ∈ (process_sub cfg ctx e l c pm idx item symbol subs subi local0 st).2.positions,
        0 ≤ q.2) := by
  intro subs
  induction subs with
  | nil =>
    intro subi local0 st hts hl0 hst
    constructor
    · intro i hi
      simp [process_sub] at hi
    · intro q hq
      simp only [process_sub] at hq
      exact hst q hq
  | cons t rest ih =>
    intro subi local0 st hts hl0 hst
    have ht0 : 0 ≤ t := hts t (List.mem_cons_self t rest)
    have hts2 : ∀ x ∈ rest, 0 ≤ x := fun x hx => hts x (List.mem_cons_of_mem t hx)
    simp only [process_sub]
    by_cases h1 : |t - local0| ≤ cfg.quantity_precision
    · rw [if_pos h1]
      exact ih (subi + 1) local0 st hts2 hl0 hst
    · rw [if_neg h1]
      by_cases h2 : (|local0| ≤ cfg.quantity_precision ∧ cfg.quantity_precision < |t|) ∧
          max_positions_reached c.max_positions st.active = true
      · rw [if_pos h2]
        exact ih (subi + 1) local0 st hts2 hl0 hst
      · rw [if_neg h2]
        by_cases h3 : 0 < t - local0
        · rw [if_pos h3]
          by_cases h4 : (normalize_quantity cfg symbol |t - local0| TradeSide.buy local0 c
              e l st.gross pm).1 ≤ cfg.quantity_precision
          · rw [if_pos h4]
            exact ih (subi + 1) local0 st hts2 hl0 hst
          · rw [if_neg h4]
            have hb := normalize_quantity_le cfg symbol |t - local0| TradeSide.buy local0 c
              e l st.gross pm
            have hnew : 0 ≤ local0 +
                (if TradeSide.buy = TradeSide.buy
                 then (normalize_quantity cfg symbol |t - local0| TradeSide.buy local0 c
                   e l st.gross pm).1
                 else -(normalize_quantity cfg symbol |t - local0| TradeSide.buy local0 c
                   e l st.gross pm).1) := by
              rw [if_pos rfl]
              exact add_nonneg hl0 hb.1
            constructor
            · intro i hi
              rcases List.mem_cons.mp hi with rfl | hi2
              · exact create_instruction_meta_bounds cfg ctx (idx * 10 + subi) item symbol
                  TradeSide.buy _ _ local0 t hl0 ht0 hnew
              · exact (ih (subi + 1) _ ⟨_, _, _⟩ hts2 hnew
                  (posSet_nonneg symbol _ hnew st.positions hst)).1 i hi2
            · intro q hq
              exact (ih (subi + 1) _ ⟨_, _, _⟩ hts2 hnew
                  (posSet_nonneg symbol _ hnew st.positions hst)).2 q hq
        · rw [if_neg h3]
          by_cases h4 : (normalize_quantity cfg symbol |t - local0| TradeSide.sell local0 c
              e l st.gross pm).1 ≤ cfg.quantity_precision
          · rw [if_pos h4]
            exact ih (subi + 1) local0 st hts2 hl0 hst
          · rw [if_neg h4]
            have hb := normalize_quantity_le cfg symbol |t - local0| TradeSide.sell local0 c
              e l st.gross pm
            have habs : |t - local0| = -(t - local0) := abs_of_nonpos (by linarith [not_lt.mp h3])
            have hqle : (normalize_quantity cfg symbol |t - local0| TradeSide.sell local0 c
                e l st.gross pm).1 ≤ local0 - t := by
              rcases apply_quantity_filters_spec symbol |t - local0| (pyOrQ c.quantity_step 0)
                  (pyOrQ c.min_trade_qty 0) c.max_order_qty c.min_notional pm with
                h0 | ⟨_, hle, _⟩
              · exfalso
                have hq2 := hb.2
                rw [h0] at hq2
                have := not_le.mp h4
                linarith
              · have := le_trans hb.2 hle
                rw [habs] at this
                linarith
            have hnew : 0 ≤ local0 +
                (if TradeSide.sell = TradeSide.buy
                 then (normalize_quantity cfg symbol |t - local0| TradeSide.sell local0 c
                   e l st.gross pm).1
                 else -(normalize_quantity cfg symbol |t - local0| TradeSide.sell local0 c
                   e l st.gross pm).1) := by
              rw [if_neg (by decide : ¬ (TradeSide.sell = TradeSide.buy))]
              linarith
            constructor
            · intro i hi
              rcases List.mem_cons.mp hi with rfl | hi2
              · exact create_instruction_meta_bounds cfg ctx (idx * 10 + subi) item symbol
                  TradeSide.sell _ _ local0 t hl0 ht0 hnew
              · exact (ih (subi + 1) _ ⟨_, _, _⟩ hts2 hnew
                  (posSet_nonneg symbol _ hnew st.positions hst)).1 i hi2
            · intro q hq
              exact (ih (subi + 1) _ ⟨_, _, _⟩ hts2 hnew
                  (posSet_nonneg symbol _ hnew st.positions hst)).2 q hq

/-- Elements of a flip-split sub-target list are nonnegative when the clamped
target is. -/
theorem mem_subs_nonneg (cur t : ℚ) (ht : 0 ≤ t) :
    ∀ x ∈ (if cur * t < 0 then [0, t] else [t]), 0 ≤ x := by
  intro x hx
  split_ifs at hx
  · rcases List.mem_cons.mp hx with rfl | hx2
    · exact le_refl 0
    · rw [List.mem_singleton.mp hx2]
      exact ht
  · rw [List.mem_singleton.mp hx]
    exact ht

/-- Item loop invariant for spot strategies: starting from nonnegative tracked
positions, every emitted instruction records nonnegative current, final, and
requested quantities. -/
theorem process_items_spot (cfg : ComposerConfig) (ctx : ComposeContext) (e l : ℚ)
    (c : Constraints) (pm : PriceMap)
    (hprec : 0 ≤ cfg.quantity_precision) (hspot : cfg.market_type = MarketType.spot) :
    ∀ (items : List LlmDecisionItem) (idx0 : ℕ) (st : PlanState),
      (∀ q ∈ st.positions, 0 ≤ q.2) →
      ∀ i ∈ process_items cfg ctx e l c pm items idx0 st,
        ∃ m, i.meta = some m ∧ 0 ≤ m.current_qty ∧ 0 ≤ m.final_target_qty ∧
          0 ≤ m.requested_target_qty := by
  intro items
  induction items with
  | nil =>
    intro idx0 st hst i hi
    simp [process_items] at hi
  | cons item rest ih =>
    intro idx0 st hst i hi
    simp only [process_items, List.mem_append] at hi
    have hcur : 0 ≤ posGet st.positions item.instrument.symbol :=
      posGet_nonneg st.positions item.instrument.symbol hst
    have htgt : 0 ≤
        (if cfg.market_type = MarketType.spot ∧
            resolve_target_quantity item (posGet st.positions item.instrument.symbol)
              c.max_position_qty < 0 then 0
         else resolve_target_quantity item (posGet st.positions item.instrument.symbol)
              c.max_position_qty) := by
      split_ifs with h
      · exact le_refl 0
      · have : ¬ (resolve_target_quantity item (posGet st.positions item.instrument.symbol)
            c.max_position_qty < 0) := fun hlt => h ⟨hspot, hlt⟩
        exact not_lt.mp this
    have hps := process_sub_spot cfg ctx e l c pm idx0 item item.instrument.symbol hprec
      _ 0 (posGet st.positions item.instrument.symbol) st
      (mem_subs_nonneg (posGet st.positions item.instrument.symbol) _ htgt) hcur hst
    rcases hi with hi | hi
    · exact hps.1 i hi
    · exact ih (idx0 + 1) _ hps.2 i hi

/-- C5: for spot strategies the normalizer clamps every negative resolved
target quantity to zero before the sub-step split, and every emitted
instruction carries nonnegative current, final, and requested quantities, so
no projected spot position goes negative. -/
theorem C5_theorem (cfg : ComposerConfig) (ctx : ComposeContext) (plan : LlmPlanProposal)
    (hspot : cfg.market_type = MarketType.spot)
    (hprec : 0 ≤ cfg.quantity_precision)
    (hpos : ∀ p ∈ ctx.portfolio.positions, 0 ≤ p.2.quantity) :
    (∀ (item : LlmDecisionItem) (cur : ℚ) (mpq : Option ℚ),
        resolve_target_quantity item cur mpq < 0 →
        (if cfg.market_type = MarketType.spot ∧
            resolve_target_quantity item cur mpq < 0 then 0
         else resolve_target_quantity item cur mpq) = 0) ∧
    (∀ i ∈ normalize_plan cfg ctx plan,
      ∃ m, i.meta = some m ∧ 0 ≤ m.current_qty ∧ 0 ≤ m.final_target_qty ∧
        0 ≤ m.requested_target_qty) := by
  constructor
  · intro item cur mpq hneg
    rw [if_pos ⟨hspot, hneg⟩]
  · intro i hi
    simp only [normalize_plan] at hi
    refine process_items_spot cfg ctx _ _ _ _ hprec hspot plan.items 0 _ ?_ i hi
    intro q hq
    simp only [List.mem_map] at hq
    obtain ⟨p, hp, rfl⟩ := hq
    exact hpos p hp

/-- Spot configuration with the default precision guard. -/
def c5cfg : ComposerConfig := { market_type := .spot }

def c5ctx : ComposeContext :=
  { ts := 0, compose_id := "cid"
    portfolio := { ts := 0, cash := 1000, positions := [("S", { quantity := 1 })]
                   gross_exposure := some 0, constraints := some {}
                   total_value := some 1000 }
    market_snapshot := some [("S", 10)] }

/-- A short attempt on a spot book: sell 2 while holding 1. -/
def c5plan : LlmPlanProposal :=
  { ts := 0, items := [{ instrument := { symbol := "S" }, action := .sell, target_qty := 2 }] }

theorem C5_witness :
    c5cfg.market_type = MarketType.spot ∧
    (∀ i ∈ normalize_plan c5cfg c5ctx c5plan,
      ∃ m, i.meta = some m ∧ 0 ≤ m.current_qty ∧ 0 ≤ m.final_target_qty ∧
        0 ≤ m.requested_target_qty) :=
  ⟨rfl, (C5_theorem c5cfg c5ctx c5plan rfl (by norm_num [c5cfg])
    (by intro p hp; simp only [c5ctx, List.mem_singleton] at hp; rw [hp]; norm_num)).2⟩

/-- C7: per-symbol grid decision rules.  With no position (held quantity within
the precision guard) the composer opens a `base_qty` long exactly when the
price moved down a full step, and (derivatives only) a `base_qty` short exactly
when it moved up a full step, where `base_qty = equity * base_fraction / price`.
With a long position and no grid zone configured, letting
`grid_index x = floor ((x / avg - 1) / step_pct)` and
`d = grid_index curr - grid_index prev`: `d < 0` adds
`base_qty * min |d| max_steps`, `d > 0` reduces by that amount capped at the
held quantity, and `d = 0` does nothing. -/
theorem C7_theorem (p : GridParams) (price qty avg_px equity prev_px curr_px : ℚ)
    (symbol : String)
    (hprice : 0 < price)
    (hbase : 0 < equity * p.base_fraction / price)
    (hprec : 0 ≤ p.quantity_precision)
    (hstep : 1 / 1000000000 ≤ p.step_pct) :
    ((|qty| ≤ p.quantity_precision → curr_px ≤ prev_px * (1 - p.step_pct) →
        grid_decide_symbol p price qty avg_px (some (prev_px, curr_px)) equity symbol =
          [{ symbol := symbol, action := .open_long
             target_qty := equity * p.base_fraction / price
             leverage := if p.is_spot then 1 else grid_leverage p, confidence := 1 }]) ∧
     (|qty| ≤ p.quantity_precision → 0 < prev_px → p.is_spot = false →
        prev_px * (1 + p.step_pct) ≤ curr_px →
        grid_decide_symbol p price qty avg_px (some (prev_px, curr_px)) equity symbol =
          [{ symbol := symbol, action := .open_short
             target_qty := equity * p.base_fraction / price
             leverage := grid_leverage p, confidence := 1 }]) ∧
     (|qty| ≤ p.quantity_precision → ¬ (curr_px ≤ prev_px * (1 - p.step_pct)) →
        ¬ (p.is_spot = false ∧ prev_px * (1 + p.step_pct) ≤ curr_px) →
        grid_decide_symbol p price qty avg_px (some (prev_px, curr_px)) equity symbol = [])) ∧
    (p.quantity_precision < qty → 0 < avg_px →
     p.grid_lower_pct = none → p.grid_upper_pct = none →
     ∀ d : ℤ,
       d = ⌊(curr_px / avg_px - 1) / p.step_pct⌋ - ⌊(prev_px / avg_px - 1) / p.step_pct⌋ →
       ((d < 0 →
          grid_decide_symbol p price qty avg_px (some (prev_px, curr_px)) equity symbol =
            [{ symbol := symbol, action := .open_long
               target_qty := equity * p.base_fraction / price * ((min |d| p.max_steps : ℤ) : ℚ)
               leverage := if p.is_spot then 1 else grid_leverage p
               confidence := min 1 (((min |d| p.max_steps : ℤ) : ℚ) / (p.max_steps : ℚ)) }]) ∧
        (0 < d →
          grid_decide_symbol p price qty avg_px (some (prev_px, curr_px)) equity symbol =
            [{ symbol := symbol, action := .close_long
               target_qty :=
                 min qty (equity * p.base_fraction / price * ((min |d| p.max_steps : ℤ) : ℚ))
               leverage := 1
               confidence := min 1 (((min |d| p.max_steps : ℤ) : ℚ) / (p.max_steps : ℚ)) }]) ∧
        (d = 0 →
          grid_decide_symbol p price qty avg_px (some (prev_px, curr_px)) equity symbol =
            []))) := by
  have hs : 0 < p.step_pct := lt_of_lt_of_le (by norm_num) hstep
  refine ⟨⟨?_, ?_, ?_⟩, ?_⟩
  · intro h1 h2
    simp only [grid_decide_symbol]
    rw [max_eq_right hbase.le, if_neg (not_le.mpr hprice), if_neg (not_le.mpr hbase),
      if_pos h1, if_pos h2]
  · intro h1 h2 h3 h4
    have hnd : ¬ (curr_px ≤ prev_px * (1 - p.step_pct)) := by
      intro hc
      nlinarith [mul_pos h2 hs]
    simp only [grid_decide_symbol]
    rw [max_eq_right hbase.le, if_neg (not_le.mpr hprice), if_neg (not_le.mpr hbase),
      if_pos h1, if_neg hnd, if_pos ⟨h3, h4⟩]
  · intro h1 h2 h3
    simp only [grid_decide_symbol]
    rw [max_eq_right hbase.le, if_neg (not_le.mpr hprice), if_neg (not_le.mpr hbase),
      if_pos h1, if_neg h2, if_neg h3]
  · intro hqty havg hlo hhi d hd
    have hqpos : 0 < qty := lt_of_le_of_lt hprec hqty
    have hnab : ¬ (|qty| ≤ p.quantity_precision) := by
      rw [abs_of_pos hqpos]
      exact not_le.mpr hqty
    have hmax : max p.step_pct (1 / 1000000000) = p.step_pct := max_eq_left hstep
    refine ⟨?_, ?_, ?_⟩
    · intro hdneg
      simp only [grid_decide_symbol]
      rw [max_eq_right hbase.le, if_neg (not_le.mpr hprice), if_neg (not_le.mpr hbase),
        if_neg hnab, if_neg (not_le.mpr havg), hmax, ← hd,
        if_neg (show ¬ d = 0 from fun h => absurd (h ▸ hdneg) (lt_irrefl 0)),
        hlo, hhi, if_neg (by simp), if_pos hqpos, if_pos hdneg]
    · intro hdpos
      simp only [grid_decide_symbol]
      rw [max_eq_right hbase.le, if_neg (not_le.mpr hprice), if_neg (not_le.mpr hbase),
        if_neg hnab, if_neg (not_le.mpr havg), hmax, ← hd,
        if_neg (show ¬ d = 0 from fun h => absurd (h ▸ hdpos) (lt_irrefl 0)),
        hlo, hhi, if_neg (by simp), if_pos hqpos, if_neg (not_lt.mpr hdpos.le),
        abs_of_pos hqpos]
    · intro hd0
      simp only [grid_decide_symbol]
      rw [max_eq_right hbase.le, if_neg (not_le.mpr hprice), if_neg (not_le.mpr hbase),
        if_neg hnab, if_neg (not_le.mpr havg), hmax, ← hd, if_pos hd0]

/-- A spot grid with a 1% step, three max steps, and a 10% base fraction. -/
def c7p : GridParams :=
  { step_pct := 1 / 100, max_steps := 3, base_fraction := 1 / 10, is_spot := true }

theorem C7_witness :
    grid_decide_symbol c7p 100 0 0 (some (100, 99)) 1000 "S" =
      [{ symbol := "S", action := .open_long, target_qty := 1
         leverage := 1, confidence := 1 }] := by
  have h := (C7_theorem c7p 100 0 0 1000 100 99 "S" (by norm_num)
    (by norm_num [c7p]) (by norm_num [c7p]) (by norm_num [c7p])).1.1
    (by norm_num [c7p]) (by norm_num [c7p])
  rw [h]
  norm_num [c7p]
